import Mathlib

/-!
Verification of the RISC-V proof-generating virtual machine (PVM) core of
this repository against its natural-language specification.

The Rust sources are shallowly embedded in Lean 4:
machine integers (`u64`, `usize`) become `Nat` together with explicit
`% 2 ^ 64` wrapping wherever the source arithmetic can wrap in a release
build, fallible operations return `Option` or `Except`, and the state
backend's typed cells become plain record fields or functions.

Each embedded definition is translated from the corresponding source file
(`reservation_set.rs`, `main_memory.rs`, `sbi.rs`, `pvm.rs`,
`csregisters.rs`, `float.rs`, `storage.rs`).  A few collaborators whose
implementation is not part of the sources (address translation, the inner
machine stepper, the `xstatus` bit-field views, cryptographic primitives,
serialization) are modelled from the specification; every such definition
carries a doc comment starting with `Modelled from the spec:`.
-/

/-! ## Common 64-bit helpers -/

/-- The value `u64::MAX`, also used as the wrap-around modulus minus one. -/
def MASK64 : ℕ := 2 ^ 64 - 1

/-- Bitwise complement on 64-bit values (`!x` in Rust for `x : u64`). -/
def compl64 (x : ℕ) : ℕ := MASK64 ^^^ x
/-! ## Reservation set (`machine_state/reservation_set.rs`)

The LR/SC reservation set stores a single 8-byte-aligned address, with
`u64::MAX` as the explicit unset sentinel. -/

namespace Reservation

/-- Embeds `UNSET_VALUE: u64 = u64::MAX`. -/
def UNSET : ℕ := 2 ^ 64 - 1

/-- Embeds `SIZE: u64 = 8`. -/
def SIZE : ℕ := 8

/-- Embeds `align_address(address, align)` from `reservation_set.rs`.  The Rust
expression `address + align - offset` is `u64` arithmetic, hence the final
`% 2 ^ 64`: for addresses in the top seven values the sum wraps. -/
def align_address (address align : ℕ) : ℕ :=
  let offset := address % align
  if offset > 0 then (address + align - offset) % 2 ^ 64 else address

/-- The reservation set holds a single backend cell `start_addr`. -/
structure ReservationSet where
  start_addr : ℕ
  deriving DecidableEq

/-- Embeds `ReservationSet::reset`. -/
def ReservationSet.reset (_rs : ReservationSet) : ReservationSet := ⟨UNSET⟩

/-- Embeds `ReservationSet::set`. -/
def ReservationSet.set (_rs : ReservationSet) (addr : ℕ) : ReservationSet :=
  ⟨align_address addr SIZE⟩

/-- Embeds `ReservationSet::test_and_unset`: reads the stored address, always
clears the reservation, and compares against the aligned query address. -/
def ReservationSet.test_and_unset (rs : ReservationSet) (addr : ℕ) :
    Bool × ReservationSet :=
  (decide (rs.start_addr ≠ UNSET ∧ rs.start_addr = align_address addr SIZE), ⟨UNSET⟩)

end Reservation

/-! ## Main memory (`machine_state/bus/main_memory.rs`)

Main memory is a flat byte region of `BYTES` bytes.  Every access of an
element type `E` with `k = mem::size_of::<E>()` bytes is bounds-checked by
`addr as usize + k > BYTES`.  In a release build this `usize` addition
wraps, which the embedding makes explicit with `% 2 ^ 64`. -/

namespace MainMemory

/-- Byte contents of the region, addressed by byte offset. -/
def Mem := ℕ → ℕ

/-- Little-endian value of the `k` bytes at `addr` (cf. the endianness
unit test in `main_memory.rs`). -/
def readLE (mem : Mem) (addr : ℕ) : ℕ → ℕ
  | 0 => 0
  | k + 1 => mem addr + 256 * readLE mem (addr + 1) k

/-- Embeds `Addressable::read` for `MainMemory`: a single element of width `k`. -/
def readElem (BYTES k : ℕ) (mem : Mem) (addr : ℕ) : Option ℕ :=
  if (addr + k) % 2 ^ 64 > BYTES then none
  else some (readLE mem addr k)

/-- Embeds `Addressable::write` for `MainMemory`: a single element of width `k`.
Only the success/failure and the touched byte range matter here; the
value's little-endian byte split is immaterial to the claims. -/
def writeElem (BYTES k : ℕ) (mem : Mem) (addr value : ℕ) : Option Mem :=
  if (addr + k) % 2 ^ 64 > BYTES then none
  else some fun i => if addr ≤ i ∧ i < addr + k then value / 256 ^ (i - addr) % 256 else mem i

/-- Embeds `Addressable::write_all` for byte slices (`E = u8`), as used by the
SBI layer: `mem::size_of_val(values)` is the length of the slice. -/
def write_all (BYTES : ℕ) (mem : Mem) (addr : ℕ) (bytes : List ℕ) : Option Mem :=
  if (addr + bytes.length) % 2 ^ 64 > BYTES then none
  else some fun i => if addr ≤ i ∧ i < addr + bytes.length then bytes.getD (i - addr) 0 else mem i

end MainMemory

/-! ## PVM SBI execution environment (`pvm/sbi.rs`) -/

namespace Sbi

/-- Modelled from the spec: the `PvmStatus` enumeration (its defining
module is not among the sources; §4.6 lists exactly these three states,
with `Evaluating` initial). -/
inductive PvmStatus
  | Evaluating
  | WaitingForInput
  | WaitingForMetadata
  deriving DecidableEq

/-- Fatal errors of `handle_call` (`PvmSbiFatalError`); error payloads
that the claims do not inspect are dropped. -/
inductive PvmSbiFatalError
  | unexpectedStatus (expected got : PvmStatus)
  | badSBIExtension (sbi_extension : ℕ)
  | badTezosSBIFunction (sbi_function : ℕ)
  | ecallFromMMode
  | exception
  | memoryAccess
  deriving DecidableEq

/-- Embeds `EnvironException` (from `traps.rs`, reconstructed from its use in
`pvm.rs` and `sbi.rs`): the three environment-call exceptions. -/
inductive EnvironException
  | EnvCallFromUMode
  | EnvCallFromSMode
  | EnvCallFromMMode
  deriving DecidableEq

/-- Modelled from the spec: integer register indices follow the standard
RISC-V ABI (`registers.rs` is not among the sources); only the argument
registers of the SBI convention are needed. -/
def a0 : ℕ := 10
def a1 : ℕ := 11
def a2 : ℕ := 12
def a3 : ℕ := 13
def a6 : ℕ := 16
def a7 : ℕ := 17

/-- Modelled from the spec: the SBI constants live in the external
`tezos_smart_rollup_constants` crate.  Only their distinctness matters to
the dispatch in `handle_call`; the legacy putchar/shutdown extension IDs
are the standard SBI ones and the Tezos firmware extension ID is a
custom EID distinct from both. -/
def SBI_CONSOLE_PUTCHAR : ℕ := 0x01
def SBI_SHUTDOWN : ℕ := 0x08
def SBI_FIRMWARE_TEZOS : ℕ := 0x0A000000
def SBI_TEZOS_INBOX_NEXT : ℕ := 0x01
def SBI_TEZOS_METADATA_REVEAL : ℕ := 0x02
def SBI_TEZOS_ED25519_SIGN : ℕ := 0x03
def SBI_TEZOS_ED25519_VERIFY : ℕ := 0x04
def SBI_TEZOS_BLAKE2B_HASH256 : ℕ := 0x05

/-- The machine state as seen by the SBI layer: program counter, integer
registers (by ABI index) and the main-memory bytes. -/
structure Machine where
  pc : ℕ
  xregs : ℕ → ℕ
  mem : MainMemory.Mem

/-- The PVM SBI state: a single status cell. -/
structure PvmSbiState where
  status : PvmStatus
  deriving DecidableEq

/-- Embeds `PvmHooks`: the `putchar_hook` is modelled by the trace of bytes it
has received, in order. -/
structure PvmHooks where
  trace : List ℕ

/-- Embeds `AccessType` of the address-translation interface. -/
inductive AccessType
  | Load
  | Store
  deriving DecidableEq

/-- Result alias for SBI handlers: `Result<bool, PvmSbiFatalError>`
together with the updated PVM, machine and hook state. -/
abbrev CallResult := Except PvmSbiFatalError Bool × PvmSbiState × Machine × PvmHooks

section Handlers

-- Size in bytes of the main-memory region (the `MainMemoryLayout`
-- type-level constant).
variable (BYTES : ℕ)

-- Modelled from the spec: `machine.translate(addr, access)` — the
-- address-translation function of the machine state, not among the
-- sources.  It is kept fully abstract; every theorem quantifies over it.
variable (translate : Machine → ℕ → AccessType → Option ℕ)

-- Modelled from the spec: the Ed25519/BLAKE2B handlers perform
-- cryptography through external crates; they are kept abstract because no
-- claim exercises them.  Each receives the machine state and produces the
-- `Result` together with the updated machine.
variable (handleSign handleVerify handleBlake :
  Machine → Except PvmSbiFatalError Bool × Machine)

/-- Embeds `PvmSbiState::provide_no_input`. -/
def provide_no_input (s : PvmSbiState) (m : Machine) : Bool × PvmSbiState × Machine :=
  match s.status with
  | PvmStatus.WaitingForInput =>
    let xr := Function.update (Function.update (Function.update m.xregs a0 0) a1 0) a2 0
    let m := { m with xregs := xr }
    (true, ⟨PvmStatus.Evaluating⟩, m)
  | _ => (false, s, m)

/-- Embeds `PvmSbiState::provide_input`. -/
def provide_input (s : PvmSbiState) (m : Machine) (level counter : ℕ)
    (payload : List ℕ) : Bool × PvmSbiState × Machine :=
  match s.status with
  | PvmStatus.WaitingForInput =>
    let s' : PvmSbiState := ⟨PvmStatus.Evaluating⟩
    let arg_buffer_addr := m.xregs a0
    let arg_buffer_size := m.xregs a1
    match translate m arg_buffer_addr AccessType.Store with
    | none =>
      let xr := Function.update (Function.update (Function.update m.xregs a0 0) a1 0) a2 0
      let m := { m with xregs := xr }
      (true, s', m)
    | some phys_dest_addr =>
      let max_buffer_size := min arg_buffer_size payload.length
      match MainMemory.write_all BYTES m.mem phys_dest_addr (payload.take max_buffer_size) with
      | none =>
        let xr := Function.update (Function.update (Function.update m.xregs a0 0) a1 0) a2 0
        let m := { m with xregs := xr }
        (true, s', m)
      | some mem' =>
        let xr := Function.update
          (Function.update (Function.update m.xregs a0 level) a1 counter) a2 max_buffer_size
        let m := { m with mem := mem', xregs := xr }
        (true, s', m)
  | _ => (false, s, m)

/-- Embeds `PvmSbiState::handle_tezos_inbox_next`. -/
def handle_tezos_inbox_next (s : PvmSbiState) :
    Except PvmSbiFatalError Bool × PvmSbiState :=
  match s.status with
  | PvmStatus.Evaluating => (Except.ok false, ⟨PvmStatus.WaitingForInput⟩)
  | status =>
    (Except.error (PvmSbiFatalError.unexpectedStatus PvmStatus.Evaluating status), s)

/-- Embeds `PvmSbiState::handle_tezos_metadata_reveal`. -/
def handle_tezos_metadata_reveal (s : PvmSbiState) :
    Except PvmSbiFatalError Bool × PvmSbiState :=
  match s.status with
  | PvmStatus.Evaluating => (Except.ok false, ⟨PvmStatus.WaitingForMetadata⟩)
  | status =>
    (Except.error (PvmSbiFatalError.unexpectedStatus PvmStatus.Evaluating status), s)

/-- Embeds `PvmSbiState::handle_shutdown`. -/
def handle_shutdown : Except PvmSbiFatalError Bool := Except.ok true

/-- Embeds `PvmSbiState::handle_console_putchar`: passes the low byte of `a0`
to the putchar hook, then clears `a0`. -/
def handle_console_putchar (m : Machine) (hooks : PvmHooks) :
    Except PvmSbiFatalError Bool × Machine × PvmHooks :=
  let char := m.xregs a0 % 256
  let hooks := ⟨hooks.trace ++ [char]⟩
  let m := { m with xregs := Function.update m.xregs a0 0 }
  (Except.ok true, m, hooks)

/-- Embeds `PvmSbiState::handle_call`: rejects M-mode ECALLs, advances the PC
past the ECALL instruction (width 4) and dispatches on the extension ID
in `a7` (and, for the Tezos firmware extension, the function ID in
`a6`). -/
def handle_call (s : PvmSbiState) (m : Machine) (hooks : PvmHooks)
    (env_exception : EnvironException) : CallResult :=
  if env_exception = EnvironException.EnvCallFromMMode then
    (Except.error PvmSbiFatalError.ecallFromMMode, s, m, hooks)
  else
    let m := { m with pc := (m.pc + 4) % 2 ^ 64 }
    let sbi_extension := m.xregs a7
    if sbi_extension = SBI_CONSOLE_PUTCHAR then
      let r := handle_console_putchar m hooks
      (r.1, s, r.2.1, r.2.2)
    else if sbi_extension = SBI_SHUTDOWN then
      (handle_shutdown, s, m, hooks)
    else if sbi_extension = SBI_FIRMWARE_TEZOS then
      let sbi_function := m.xregs a6
      if sbi_function = SBI_TEZOS_INBOX_NEXT then
        let r := handle_tezos_inbox_next s
        (r.1, r.2, m, hooks)
      else if sbi_function = SBI_TEZOS_METADATA_REVEAL then
        let r := handle_tezos_metadata_reveal s
        (r.1, r.2, m, hooks)
      else if sbi_function = SBI_TEZOS_ED25519_SIGN then
        let r := handleSign m
        (r.1, s, r.2, hooks)
      else if sbi_function = SBI_TEZOS_ED25519_VERIFY then
        let r := handleVerify m
        (r.1, s, r.2, hooks)
      else if sbi_function = SBI_TEZOS_BLAKE2B_HASH256 then
        let r := handleBlake m
        (r.1, s, r.2, hooks)
      else
        (Except.error (PvmSbiFatalError.badTezosSBIFunction sbi_function), s, m, hooks)
    else
      (Except.error (PvmSbiFatalError.badSBIExtension sbi_extension), s, m, hooks)

end Handlers

end Sbi

/-! ## Bounded evaluation (`pvm.rs`, `Pvm::eval_range`)

`eval_range` drives the inner machine stepper in a loop, handling every
environment-call exception the stepper reports.  The inner machine is
represented by the trace of step events this execution produces: each
event is either a normally executed step or an environment trap, the
latter carrying the outcome its handling by the execution environment
will produce (`EcallOutcome` from `exec_env.rs`). -/

namespace Eval

/-- Embeds `EcallOutcome` from `exec_env.rs` (the `Fatal` message is dropped). -/
inductive EcallOutcome
  | fatal
  | handled (continue_eval : Bool)
  deriving DecidableEq

/-- One machine step: either a normally retired instruction or an
environment-call exception. -/
inductive StepEvent
  | ok
  | trap (outcome : EcallOutcome)
  deriving DecidableEq

/-- Is the event a normally executed step? -/
def isOk : StepEvent → Bool
  | StepEvent.ok => true
  | StepEvent.trap _ => false

/-- Is the event an environment-call exception? -/
def isTrap (e : StepEvent) : Bool := !isOk e

/-- Embeds `StepManyResult` of `machine_state.rs`, extended with the part of the
trace that remains to be executed (the machine state after stepping). -/
structure StepManyResult where
  steps : ℕ
  exception : Option EcallOutcome
  rest : List StepEvent
  deriving DecidableEq

/-- Modelled from the spec: `MachineState::step_range` (its module is not
among the sources).  Per §4.5 it executes at most `maxB` steps, checks
`should_continue` before every step, stops at — and does not count — an
instruction that raises an exception, and returns the exact number of
steps performed. -/
def step_range (cont : List StepEvent → Bool) : ℕ → List StepEvent → StepManyResult
  | 0, tr => ⟨0, none, tr⟩
  | _ + 1, [] => ⟨0, none, []⟩
  | maxB + 1, e :: tr =>
    if cont (e :: tr) then
      match e with
      | StepEvent.ok =>
        ⟨(step_range cont maxB tr).steps + 1, (step_range cont maxB tr).exception,
          (step_range cont maxB tr).rest⟩
      | StepEvent.trap o => ⟨0, some o, tr⟩
    else ⟨0, none, e :: tr⟩

/-- Result of `Pvm::eval_range` (`EvalManyResult`), with the remaining
trace; `fatal` records whether evaluation ended in an `EvalError`. -/
structure EvalManyResult where
  steps : ℕ
  fatal : Bool
  rest : List StepEvent
  deriving DecidableEq

/-- The evaluation loop of `Pvm::eval_range`: run `step_range`, account
its steps, and on an exception account one additional step for the
attempted handling; on `Handled { continue_eval: true }` shift the step
bounds down by the consumed steps (`range_bounds_saturating_sub`) and
resume.  The `usize` saturating additions of the source are plain `ℕ`
additions here (the counters are bounded by the trace length, so
saturation is unreachable). -/
def eval_range_loop (cont : List StepEvent → Bool) (minB maxB total : ℕ)
    (tr : List StepEvent) : EvalManyResult :=
  match hx : (step_range cont maxB tr).exception with
  | none => ⟨total + (step_range cont maxB tr).steps, false, (step_range cont maxB tr).rest⟩
  | some EcallOutcome.fatal =>
    ⟨total + (step_range cont maxB tr).steps + 1, true, (step_range cont maxB tr).rest⟩
  | some (EcallOutcome.handled false) =>
    ⟨total + (step_range cont maxB tr).steps + 1, false, (step_range cont maxB tr).rest⟩
  | some (EcallOutcome.handled true) =>
    eval_range_loop cont (minB - ((step_range cont maxB tr).steps + 1))
      (maxB - ((step_range cont maxB tr).steps + 1))
      (total + (step_range cont maxB tr).steps + 1) (step_range cont maxB tr).rest
termination_by tr.length
decreasing_by
  have key : ∀ (b : ℕ) (l : List StepEvent), (step_range cont b l).exception.isSome →
      (step_range cont b l).rest.length < l.length := by
    intro b
    induction b with
    | zero => intro l h; simp [step_range] at h
    | succ b ih =>
      intro l h
      cases l with
      | nil => simp [step_range] at h
      | cons e l =>
        by_cases hc : cont (e :: l)
        · cases e with
          | ok =>
            simp only [step_range, if_pos hc] at h ⊢
            have := ih l h
            simpa using Nat.lt_succ_of_lt this
          | trap o =>
            simp [step_range, if_pos hc]
        · simp [step_range, if_neg hc] at h
  exact key maxB tr (by simp [hx])

/-- Embeds `Pvm::eval_range`: inclusive step bounds `minB..=maxB` with a zero
step accumulator. -/
def eval_range (cont : List StepEvent → Bool) (minB maxB : ℕ)
    (tr : List StepEvent) : EvalManyResult :=
  eval_range_loop cont minB maxB 0 tr

end Eval

/-! ## CSR subsystem (`machine_state/csregisters.rs`)

Registers are identified by their architectural CSR address (the
discriminant of the `CSRegister` enum).  The register file is the
4096-slot array of the source, embedded as a function from addresses to
64-bit values.  Shadow registers (`sstatus`, `sip`, `sie`, `fcsr`,
`frm`, `fflags`) are never stored themselves: reads and writes are
redirected onto their ground-truth register. -/

namespace Csr

def fflags : ℕ := 0x001
def frm : ℕ := 0x002
def fcsr : ℕ := 0x003
def sstatus : ℕ := 0x100
def sie : ℕ := 0x104
def stvec : ℕ := 0x105
def senvcfg : ℕ := 0x10A
def sepc : ℕ := 0x141
def scause : ℕ := 0x142
def sip : ℕ := 0x144
def satp : ℕ := 0x180
def mstatus : ℕ := 0x300
def misa : ℕ := 0x301
def medeleg : ℕ := 0x302
def mideleg : ℕ := 0x303
def mie : ℕ := 0x304
def mtvec : ℕ := 0x305
def menvcfg : ℕ := 0x30A
def mepc : ℕ := 0x341
def mcause : ℕ := 0x342
def mip : ℕ := 0x344
def mseccfg : ℕ := 0x747
def mnepc : ℕ := 0x741
def mncause : ℕ := 0x742
def mnstatus : ℕ := 0x744

/-- All addresses of the `CSRegister` enumeration. -/
def csrAddrs : List ℕ :=
  [fflags, frm, fcsr] ++
  [0xC00, 0xC01, 0xC02] ++ (List.range 29).map (fun i => 0xC03 + i) ++
  [sstatus, sie, stvec, 0x106, senvcfg, 0x140, sepc, scause, 0x143, sip, satp, 0x5A8] ++
  [0x600, 0x602, 0x603, 0x604, 0x606, 0x607, 0x643, 0x644, 0x645, 0x64A, 0xE12,
    0x60A, 0x680, 0x6A8, 0x605] ++
  [0x200, 0x204, 0x205, 0x240, 0x241, 0x242, 0x243, 0x244, 0x280] ++
  [0xF11, 0xF12, 0xF13, 0xF14, 0xF15] ++
  [mstatus, misa, medeleg, mideleg, mie, mtvec, 0x306] ++
  [0x340, mepc, mcause, 0x343, mip, 0x34A, 0x34B] ++
  [menvcfg, mseccfg] ++
  [0x3A0, 0x3A2, 0x3A4, 0x3A6, 0x3A8, 0x3AA, 0x3AC, 0x3AE] ++
  (List.range 64).map (fun i => 0x3B0 + i) ++
  [0x740, mnepc, mncause, mnstatus] ++
  [0xB00, 0xB02] ++ (List.range 29).map (fun i => 0xB03 + i) ++
  [0x320] ++ (List.range 29).map (fun i => 0x323 + i) ++
  [0x7A0, 0x7A1, 0x7A2, 0x7A3, 0x7A5, 0x7A8, 0x7B0, 0x7B1, 0x7B2, 0x7B3]

/-- Membership in the `CSRegister` enumeration. -/
def IsCSRegister (r : ℕ) : Prop := r ∈ csrAddrs

instance (r : ℕ) : Decidable (IsCSRegister r) := by
  unfold IsCSRegister
  infer_instance

/-- Embeds `CSRegister::is_read_only`: section 2.1, table 2.1. -/
def is_read_only (r : ℕ) : Bool := (r >>> 10) &&& 0b11 == 0b11

/-- Embeds `ones(n)`: the bitmask of `n` ones (`!0 >> (64 saturating_sub n)`). -/
def ones (n : ℕ) : ℕ := if n = 0 then 0 else MASK64 >>> (64 - n)

def WPRI_MASK_EMPTY : ℕ := MASK64

def WPRI_MASK_MSTATUS : ℕ :=
  compl64 (ones 1 <<< 0 ||| ones 1 <<< 2 ||| ones 1 <<< 4 ||| ones 9 <<< 23 |||
    ones 25 <<< 38)

def WPRI_MASK_MENVCFG : ℕ := compl64 (ones 3 <<< 1 ||| ones 54 <<< 8)

def WPRI_MASK_MSECCFG : ℕ := compl64 (ones 5 <<< 3 ||| ones (64 - 10) <<< 10)

def WPRI_MASK_SSTATUS : ℕ :=
  compl64 (ones 1 <<< 0 ||| ones 3 <<< 2 ||| ones 1 <<< 7 ||| ones 2 <<< 11 |||
    ones 1 <<< 17 ||| ones 12 <<< 20 ||| ones 29 <<< 34)

def WPRI_MASK_SENVCFG : ℕ := compl64 (ones 3 <<< 1 ||| ones (64 - 8) <<< 8)

def WPRI_MASK_MNCAUSE : ℕ := compl64 (ones 1 <<< 63)

def WPRI_MASK_MNSTATUS : ℕ :=
  compl64 (ones 3 <<< 0 ||| ones 3 <<< 4 ||| ones 3 <<< 8 ||| ones (64 - 13) <<< 13)

/-- Embeds `CSRegister::wpri_mask`. -/
def wpri_mask (r : ℕ) : ℕ :=
  if r = mstatus then WPRI_MASK_MSTATUS
  else if r = menvcfg then WPRI_MASK_MENVCFG
  else if r = mseccfg then WPRI_MASK_MSECCFG
  else if r = sstatus then WPRI_MASK_SSTATUS
  else if r = senvcfg then WPRI_MASK_SENVCFG
  else if r = mncause then WPRI_MASK_MNCAUSE
  else if r = mnstatus then WPRI_MASK_MNSTATUS
  else WPRI_MASK_EMPTY

/-- Embeds `CSRegister::clear_wpri_fields`. -/
def clear_wpri_fields (r v : ℕ) : ℕ := v &&& wpri_mask r

def INTERRUPT_BIT : ℕ := 1 <<< 63

/-- Embeds `WLRL_MCAUSE_VALUES`, table 3.6. -/
def WLRL_MCAUSE_VALUES : List ℕ :=
  [INTERRUPT_BIT ||| 1, INTERRUPT_BIT ||| 3, INTERRUPT_BIT ||| 5, INTERRUPT_BIT ||| 7,
   INTERRUPT_BIT ||| 9, INTERRUPT_BIT ||| 11,
   0, 1, 2, 3, 4, 5, 6, 7, 8, 9, 11, 12, 13, 15]

/-- Embeds `WLRL_SCAUSE_VALUES`, table 4.2. -/
def WLRL_SCAUSE_VALUES : List ℕ :=
  [INTERRUPT_BIT ||| 1, INTERRUPT_BIT ||| 5, INTERRUPT_BIT ||| 9,
   0, 1, 2, 3, 4, 5, 6, 7, 8, 9, 12, 13, 15]

/-- Embeds `CSRegister::legal_values`. -/
def legal_values (r : ℕ) : List ℕ :=
  if r = mcause then WLRL_MCAUSE_VALUES
  else if r = scause then WLRL_SCAUSE_VALUES
  else []

/-- Embeds `CSRegister::is_legal`. -/
def is_legal (r v : ℕ) : Bool :=
  (legal_values r).isEmpty || (legal_values r).contains v

/-- Embeds `WARL_MISA_VALUE`: MXL = 0b10 plus extensions A, C, D, F, I, M, S, U. -/
def WARL_MISA_VALUE : ℕ :=
  (0b10 <<< 62) ||| (1 <<< 0) ||| (1 <<< 2) ||| (1 <<< 3) ||| (1 <<< 5) |||
    (1 <<< 8) ||| (1 <<< 12) ||| (1 <<< 18) ||| (1 <<< 20)

def WARL_MASK_MEDELEG : ℕ :=
  compl64 (ones 1 <<< 10 ||| ones 1 <<< 11 ||| ones 1 <<< 14 ||| ones (64 - 16) <<< 16)

def WARL_MASK_MIDELEG : ℕ :=
  compl64 (ones 1 <<< 0 ||| ones 1 <<< 2 ||| ones 1 <<< 4 ||| ones 1 <<< 6 |||
    ones 1 <<< 8 ||| ones 1 <<< 10 ||| ones 4 <<< 12 ||| ones (64 - 16) <<< 16)

def WARL_MASK_XTVEC : ℕ := compl64 (ones 1 <<< 1)

/-- Embeds `Interrupt::MACHINE_BIT_MASK` (MSIP, MTIP, MEIP: exception codes
3, 7, 11; values fixed by the `test_writable_warl` expectations). -/
def MACHINE_BIT_MASK : ℕ := (1 <<< 3) ||| (1 <<< 7) ||| (1 <<< 11)

/-- Embeds `Interrupt::SUPERVISOR_BIT_MASK` (SSIP, STIP, SEIP: codes 1, 5, 9). -/
def SUPERVISOR_BIT_MASK : ℕ := (1 <<< 1) ||| (1 <<< 5) ||| (1 <<< 9)

def WARL_MASK_MIP_MIE : ℕ := MACHINE_BIT_MASK ||| SUPERVISOR_BIT_MASK

def WARL_MASK_SIP_SIE : ℕ := SUPERVISOR_BIT_MASK

def WARL_MASK_XEPC : ℕ := compl64 1

def FRM_SHIFT : ℕ := 5

def FRM_MASK : ℕ := 0b111 <<< FRM_SHIFT

def FFLAGS_MASK : ℕ := 0b11111

def FCSR_MASK : ℕ := FRM_MASK ||| FFLAGS_MASK

/-- Modelled from the spec: legalisation of a 2-bit extension-status
field (`xstatus.rs` is not among the sources).  Supported values are
Off (0), Initial (1) and Dirty (3); the unsupported Clean encoding is
legalised to Dirty, as fixed by the `test_writable_warl` expectations
("FS gets changed to 11 (dirty)"). -/
def normExt (v : ℕ) : ℕ := if v = 2 then 3 else v

/-- Modelled from the spec: legalisation of the 2-bit MPP field; the
Hypervisor encoding (2) is unsupported and legalised to User (0). -/
def normMPP (v : ℕ) : ℕ := if v = 2 then 0 else v

/-- The single-bit `mstatus` fields: SIE, MIE, SPIE, UBE, MPIE, SPP,
MPRV, SUM, MXR, TVM, TW, TSR, SBE, MBE (bits 1, 3, 5–8, 17–22, 36, 37). -/
def MSTATUS_BOOL_MASK : ℕ :=
  (1 <<< 1) ||| (1 <<< 3) ||| (1 <<< 5) ||| (1 <<< 6) ||| (1 <<< 7) ||| (1 <<< 8) |||
  (1 <<< 17) ||| (1 <<< 18) ||| (1 <<< 19) ||| (1 <<< 20) ||| (1 <<< 21) |||
  (1 <<< 22) ||| (1 <<< 36) ||| (1 <<< 37)

/-- Modelled from the spec: `MStatus::normalise` (§4.2): keep the
defined fields, force VS to 0 (virtualisation unsupported), legalise
MPP/FS/XS, force UXL = SXL = 0b10 (MXL), and derive SD from FS/XS. -/
def mstatus_normalise (x : ℕ) : ℕ :=
  (x &&& MSTATUS_BOOL_MASK) |||
  (normMPP ((x >>> 11) &&& 3) <<< 11) |||
  (normExt ((x >>> 13) &&& 3) <<< 13) |||
  (normExt ((x >>> 15) &&& 3) <<< 15) |||
  (2 <<< 32) ||| (2 <<< 34) |||
  ((if normExt ((x >>> 13) &&& 3) = 3 ∨ normExt ((x >>> 15) &&& 3) = 3 then 1 else 0) <<< 63)

/-- The single-bit `sstatus` fields: SIE, SPIE, UBE, SPP, SUM, MXR. -/
def SSTATUS_BOOL_MASK : ℕ :=
  (1 <<< 1) ||| (1 <<< 5) ||| (1 <<< 6) ||| (1 <<< 8) ||| (1 <<< 18) ||| (1 <<< 19)

/-- All bit positions of `mstatus` that are visible through `sstatus`:
SIE, SPIE, UBE, SPP, FS, XS, SUM, MXR, UXL and the derived SD bit. -/
def SSTATUS_ALL_MASK : ℕ :=
  SSTATUS_BOOL_MASK ||| (3 <<< 13) ||| (3 <<< 15) ||| (3 <<< 32) ||| (1 <<< 63)

/-- Modelled from the spec: `SStatus::normalise` — the `sstatus` view of
`mstatus_normalise`. -/
def sstatus_normalise (x : ℕ) : ℕ :=
  (x &&& SSTATUS_BOOL_MASK) |||
  (normExt ((x >>> 13) &&& 3) <<< 13) |||
  (normExt ((x >>> 15) &&& 3) <<< 15) |||
  (2 <<< 32) |||
  ((if normExt ((x >>> 13) &&& 3) = 3 ∨ normExt ((x >>> 15) &&& 3) = 3 then 1 else 0) <<< 63)

/-- Modelled from the spec: `SStatus::to_mstatus` — splice the
`sstatus`-visible bit positions into the ground-truth `mstatus`,
leaving every other bit untouched (§4.2 step 4). -/
def sstatus_to_mstatus (sstatusv mstatusv : ℕ) : ℕ :=
  (mstatusv &&& compl64 SSTATUS_ALL_MASK) ||| (sstatusv &&& SSTATUS_ALL_MASK)

/-- Modelled from the spec: `MStatus::to_sstatus` — the masked view. -/
def mstatus_to_sstatus (mstatusv : ℕ) : ℕ := mstatusv &&& SSTATUS_ALL_MASK

/-- Modelled from the spec: `MNStatus::normalise` — MNPV (bit 7) is
read-only 0 and NMIE (bit 3) is forced to 1, as fixed by the
`test_writable_warl` expectations. -/
def mnstatus_normalise (x : ℕ) : ℕ := (x &&& compl64 (1 <<< 7)) ||| (1 <<< 3)

/-- Modelled from the spec: `Satp::normalise` (`satp.rs` is not among
the sources) — the MODE field occupies bits 60–63; Bare (0) normalises
the whole register to 0, Sv39 (8) and Sv48 (9) are kept, any other
paging mode is unsupported and the write must be dropped (`None`), as
fixed by the `test_writable_warl` expectations. -/
def satp_normalise (x : ℕ) : Option ℕ :=
  if x >>> 60 = 0 then some 0
  else if x >>> 60 = 8 ∨ x >>> 60 = 9 then some x
  else none

/-- Embeds `CSRegister::transform_warl_fields`. -/
def transform_warl_fields (r v : ℕ) : Option ℕ :=
  if r = misa then some WARL_MISA_VALUE
  else if r = medeleg then some (v &&& WARL_MASK_MEDELEG)
  else if r = mideleg then some (v &&& WARL_MASK_MIDELEG)
  else if r = mtvec ∨ r = stvec then some (v &&& WARL_MASK_XTVEC)
  else if r = mip ∨ r = mie then some (v &&& WARL_MASK_MIP_MIE)
  else if r = sip ∨ r = sie then some (v &&& WARL_MASK_SIP_SIE)
  else if r = mepc ∨ r = sepc ∨ r = mnepc then some (v &&& WARL_MASK_XEPC)
  else if r = satp then satp_normalise v
  else if r = mstatus then some (mstatus_normalise v)
  else if r = sstatus then some (sstatus_normalise v)
  else if r = mnstatus then some (mnstatus_normalise v)
  else some v

/-- Embeds `CSRegister::make_value_writable`: WPRI, then WARL, then WLRL. -/
def make_value_writable (r v : ℕ) : Option ℕ :=
  (transform_warl_fields r (clear_wpri_fields r v)).bind fun w =>
    if is_legal r w then some w else none

/-- The 4096-slot register array, as a function from CSR addresses. -/
def CsrFile := ℕ → ℕ

/-- Embeds `CSRegisters::transform_write`: redirect shadow-register writes onto
their ground truth, merging with its non-shadowed bits. -/
def transform_write (f : CsrFile) (r v : ℕ) : ℕ × ℕ :=
  if r = sstatus then (mstatus, sstatus_to_mstatus v (f mstatus))
  else if r = sip then
    (mip, (v &&& WARL_MASK_SIP_SIE) ||| (f mip &&& compl64 WARL_MASK_SIP_SIE))
  else if r = sie then
    (mie, (v &&& WARL_MASK_SIP_SIE) ||| (f mie &&& compl64 WARL_MASK_SIP_SIE))
  else if r = fcsr then (fcsr, v &&& FCSR_MASK)
  else if r = frm then
    (fcsr, ((v <<< FRM_SHIFT) &&& FRM_MASK) ||| (f fcsr &&& compl64 FRM_MASK))
  else if r = fflags then
    (fcsr, (v &&& FFLAGS_MASK) ||| (f fcsr &&& compl64 FFLAGS_MASK))
  else (r, v)

/-- The ground-truth register read when `r` is requested
(`transform_read`'s `unwrap_or_else` lookup). -/
def shadow_source (r : ℕ) : ℕ :=
  if r = sstatus then mstatus
  else if r = sip then mip
  else if r = sie then mie
  else if r = fflags then fcsr
  else if r = frm then fcsr
  else r

/-- Embeds `CSRegisters::transform_read`: project the ground-truth value onto
the requested register's view. -/
def transform_read (r sv : ℕ) : ℕ :=
  if r = sstatus then mstatus_to_sstatus sv
  else if r = sip then sv &&& WARL_MASK_SIP_SIE
  else if r = sie then sv &&& WARL_MASK_SIP_SIE
  else if r = fcsr then sv &&& FCSR_MASK
  else if r = frm then (sv &&& FRM_MASK) >>> FRM_SHIFT
  else if r = fflags then sv &&& FFLAGS_MASK
  else sv

/-- Embeds `CSRegisters::read`. -/
def read (f : CsrFile) (r : ℕ) : ℕ := transform_read r (f (shadow_source r))

/-- Embeds `CSRegisters::write`. -/
def write (f : CsrFile) (r v : ℕ) : CsrFile :=
  match make_value_writable r v with
  | none => f
  | some w => Function.update f (transform_write f r w).1 (transform_write f r w).2

/-- Embeds `CSRegisters::set_bits`: read, OR in the bits, write back; returns
the old value together with the new file. -/
def set_bits (f : CsrFile) (r bits : ℕ) : ℕ × CsrFile :=
  (read f r, write f r (read f r ||| bits))

/-- The value actually read back after a successful `write` legalised
the input to `w`: identical to `w` except for the floating-point shadow
registers, whose view keeps only their own field bits. -/
def read_back (r w : ℕ) : ℕ :=
  if r = fcsr then w &&& FCSR_MASK
  else if r = frm then w &&& 0b111
  else if r = fflags then w &&& FFLAGS_MASK
  else w

end Csr

/-! ## Floating-point comparisons (`interpreter/float.rs`)

The comparisons only depend on the IEEE 754 classification of the
operands (any NaN compares false) and on whether an operand is a quiet
or signaling NaN; non-NaN values are represented by their numeric
value, which is all `rustc_apfloat`'s `PartialOrd`/`PartialEq` consult
(±0 compare equal). -/

namespace Fpu

/-- A floating-point operand: a numeric (non-NaN) value, a quiet NaN or
a signaling NaN. -/
inductive FloatVal
  | num (q : ℚ)
  | qnan
  | snan
  deriving DecidableEq

/-- Embeds `Float::is_nan`. -/
def FloatVal.is_nan : FloatVal → Bool
  | FloatVal.num _ => false
  | _ => true

/-- Embeds `Float::is_signaling`. -/
def FloatVal.is_signaling : FloatVal → Bool
  | FloatVal.snan => true
  | _ => false

/-- IEEE equality (`rval1 == rval2`): false whenever a NaN is involved. -/
def feq : FloatVal → FloatVal → Bool
  | FloatVal.num a, FloatVal.num b => a = b
  | _, _ => false

/-- IEEE less-than (`rval1 < rval2`): false whenever a NaN is involved. -/
def flt : FloatVal → FloatVal → Bool
  | FloatVal.num a, FloatVal.num b => a < b
  | _, _ => false

/-- IEEE less-or-equal (`rval1 <= rval2`). -/
def fle : FloatVal → FloatVal → Bool
  | FloatVal.num a, FloatVal.num b => a ≤ b
  | _, _ => false

/-- The hart state visible to the comparison ops: the CSR file and the
two register files. -/
structure HartState where
  csregisters : Csr.CsrFile
  xregisters : ℕ → ℕ
  fregisters : ℕ → FloatVal

/-- Embeds `Fflag::NV` (invalid operation) is bit 4 of `fflags`. -/
def NV : ℕ := 4

/-- Embeds `CSRegisters::set_exception_flag`: OR the flag bit into `fflags`
through the CSR write path. -/
def set_exception_flag (h : HartState) (mask : ℕ) : HartState :=
  { h with csregisters := (Csr.set_bits h.csregisters Csr.fflags (1 <<< mask)).2 }

/-- Embeds `HartState::run_feq`. -/
def run_feq (h : HartState) (rs1 rs2 rd : ℕ) : HartState :=
  let rval1 := h.fregisters rs1
  let rval2 := h.fregisters rs2
  let h1 := if rval1.is_signaling || rval2.is_signaling then set_exception_flag h NV else h
  let res : ℕ := if feq rval1 rval2 then 1 else 0
  { h1 with xregisters := Function.update h1.xregisters rd res }

/-- Embeds `HartState::run_flt`. -/
def run_flt (h : HartState) (rs1 rs2 rd : ℕ) : HartState :=
  let rval1 := h.fregisters rs1
  let rval2 := h.fregisters rs2
  let h1 := if rval1.is_nan || rval2.is_nan then set_exception_flag h NV else h
  let res : ℕ := if flt rval1 rval2 then 1 else 0
  { h1 with xregisters := Function.update h1.xregisters rd res }

/-- Embeds `HartState::run_fle`. -/
def run_fle (h : HartState) (rs1 rs2 rd : ℕ) : HartState :=
  let rval1 := h.fregisters rs1
  let rval2 := h.fregisters rs2
  let h1 := if rval1.is_nan || rval2.is_nan then set_exception_flag h NV else h
  let res : ℕ := if fle rval1 rval2 then 1 else 0
  { h1 with xregisters := Function.update h1.xregisters rd res }

end Fpu

/-! ## Content-addressed storage (`storage.rs`)

The on-disk store (one file per BLAKE2B-256 digest) is embedded as a
partial map from digests to byte blobs.  The hash function and the
`bincode` serializers are external crates and appear as parameters;
the round-trip theorem assumes the hash is collision-free (injective)
and the serializers invert each other at the values in play, which is
exactly what the source relies on.  I/O errors cannot occur in the map
model; `NotFound`/`ChunkNotFound` both collapse to `Option.none`. -/

namespace Storage

/-- Byte blobs. -/
abbrev Bytes := List ℕ

/-- The store directory: digest → blob. -/
def StoreMap (Hash : Type) := Hash → Option Bytes

/-- Embeds `Store::store`: hash the data and write it only if the file does
not already exist (write-once); return the hash. -/
def store {Hash : Type} [DecidableEq Hash] (hashFn : Bytes → Hash)
    (s : StoreMap Hash) (data : Bytes) : Hash × StoreMap Hash :=
  (hashFn data,
   fun h => if h = hashFn data then some ((s (hashFn data)).getD data) else s h)

/-- Embeds `Store::load`. -/
def load {Hash : Type} (s : StoreMap Hash) (h : Hash) : Option Bytes := s h

/-- Embeds `bytes.chunks(CHUNK_SIZE)` with `CHUNK_SIZE = 4096`: all chunks are
4096 bytes except possibly the last, and no empty chunks are produced. -/
def chunks4096 : Bytes → List Bytes
  | [] => []
  | a :: l => (a :: l).take 4096 :: chunks4096 ((a :: l).drop 4096)
termination_by l => l.length
decreasing_by
  simp only [List.length_drop, List.length_cons]
  omega

/-- The chunk-storing loop of `Repo::commit`: store every chunk in
order, collecting the chunk hashes. -/
def storeChunks {Hash : Type} [DecidableEq Hash] (hashFn : Bytes → Hash)
    (s : StoreMap Hash) : List Bytes → List Hash × StoreMap Hash
  | [] => ([], s)
  | c :: cs =>
    let r := store hashFn s c
    let r2 := storeChunks hashFn r.2 cs
    (r.1 :: r2.1, r2.2)

/-- Embeds `Repo::commit`: serialize, store the 4096-byte chunks, then store
the serialized ordered list of chunk hashes; the returned hash is the
hash of that commit list, not of the raw data. -/
def commit {T Hash : Type} [DecidableEq Hash] (hashFn : Bytes → Hash)
    (serVal : T → Bytes) (serHashes : List Hash → Bytes)
    (s : StoreMap Hash) (v : T) : Hash × StoreMap Hash :=
  let bytes := serVal v
  let r := storeChunks hashFn s (chunks4096 bytes)
  store hashFn r.2 (serHashes r.1)

/-- The chunk-loading loop of `Repo::checkout`: load every chunk of the
commit list in order; a missing chunk fails the whole checkout. -/
def loadChunks {Hash : Type} (s : StoreMap Hash) : List Hash → Option (List Bytes)
  | [] => some []
  | h :: hs => do
    let c ← load s h
    let rest ← loadChunks s hs
    pure (c :: rest)

/-- Embeds `Repo::checkout`: load the commit blob, deserialize the chunk-hash
list, load and concatenate every chunk in order, deserialize. -/
def checkout {T Hash : Type} (deserVal : Bytes → Option T)
    (deserHashes : Bytes → Option (List Hash))
    (s : StoreMap Hash) (id : Hash) : Option T := do
  let bytes ← load s id
  let commitHashes ← deserHashes bytes
  let chunkList ← loadChunks s commitHashes
  deserVal chunkList.flatten

/-- Every blob in the store sits under its own hash. -/
def Consistent {Hash : Type} (hashFn : Bytes → Hash) (s : StoreMap Hash) : Prop :=
  ∀ h b, s h = some b → hashFn b = h

end Storage

theorem land_lor_right (a b c : ℕ) : (a ||| b) &&& c = (a &&& c) ||| (b &&& c) := by
  apply Nat.eq_of_testBit_eq
  intro i
  simp only [Nat.testBit_land, Nat.testBit_lor]
  cases a.testBit i <;> cases b.testBit i <;> cases c.testBit i <;> rfl

theorem land_land (a b c : ℕ) : a &&& b &&& c = a &&& (b &&& c) := by
  apply Nat.eq_of_testBit_eq
  intro i
  simp only [Nat.testBit_land]
  cases a.testBit i <;> cases b.testBit i <;> cases c.testBit i <;> rfl

theorem land_zero_absorb {b c : ℕ} (h : b &&& c = 0) (a : ℕ) : a &&& b &&& c = 0 := by
  rw [land_land, h]
  simp

namespace Reservation

theorem align_address_eq_round_up {addr : ℕ} (h : addr < 2 ^ 64) :
    align_address addr SIZE = 8 * ((addr + 7) / 8) % 2 ^ 64 := by
  unfold align_address SIZE
  rcases Nat.eq_zero_or_pos (addr % 8) with h0 | hpos
  · rw [if_neg (by omega)]
    obtain ⟨k, rfl⟩ := Nat.dvd_of_mod_eq_zero h0
    rw [Nat.mul_add_div (by norm_num), Nat.div_eq_of_lt (by norm_num)]
    omega
  · rw [if_pos (by omega)]
    have hd := Nat.div_add_mod addr 8
    set q := addr / 8 with hq
    set o := addr % 8 with ho
    have ho8 : o < 8 := Nat.mod_lt _ (by norm_num)
    have h1 : addr + 8 - o = 8 * (q + 1) := by omega
    have h2 : (addr + 7) / 8 = q + 1 := by
      have : addr + 7 = 8 * (q + 1) + (o - 1) := by omega
      rw [this, Nat.mul_add_div (by norm_num), Nat.div_eq_of_lt (by omega)]
    rw [h1, h2]

theorem align_address_mod_eight (addr : ℕ) (h : addr < 2 ^ 64) :
    align_address addr SIZE % 8 = 0 := by
  rw [align_address_eq_round_up h]
  have h64 : (2 : ℕ) ^ 64 = 8 * 2 ^ 61 := by norm_num
  omega

end Reservation

/-! ## Claim C8 — reservation set, and Claim C6 — main-memory bounds -/

/-- Claim C8: `set(addr)` stores `addr` rounded up to the next 8-byte
boundary (in `u64` arithmetic); every `test_and_unset` call clears the
reservation regardless of outcome; after `set(addr)`,
`test_and_unset(q)` returns true exactly when the aligned query matches
the stored aligned address; and a second `test_and_unset` without an
intervening `set` always returns false. -/
theorem reservation_set_single_use (rs : Reservation.ReservationSet) (addr q q' : ℕ)
    (haddr : addr < 2 ^ 64) :
    (rs.set addr).start_addr = 8 * ((addr + 7) / 8) % 2 ^ 64 ∧
    (∀ (s : Reservation.ReservationSet) (p : ℕ),
      ((s.test_and_unset p).2).start_addr = Reservation.UNSET) ∧
    (((rs.set addr).test_and_unset q).1 = true ↔
      Reservation.align_address q Reservation.SIZE =
        Reservation.align_address addr Reservation.SIZE) ∧
    ((((rs.set addr).test_and_unset q).2).test_and_unset q').1 = false := by
  have hmod := Reservation.align_address_mod_eight addr haddr
  have hne : Reservation.align_address addr Reservation.SIZE ≠ Reservation.UNSET := by
    intro hEq
    rw [hEq] at hmod
    simp [Reservation.UNSET] at hmod
  refine ⟨Reservation.align_address_eq_round_up haddr, fun s p => rfl, ?_, ?_⟩
  · simp only [Reservation.ReservationSet.set, Reservation.ReservationSet.test_and_unset,
      decide_eq_true_eq]
    constructor
    · rintro ⟨-, h⟩
      exact h.symm
    · intro h
      exact ⟨hne, h.symm⟩
  · simp [Reservation.ReservationSet.set, Reservation.ReservationSet.test_and_unset]

/-- Witness for `reservation_set_single_use` at a concrete address. -/
theorem reservation_set_single_use_witness :
    (13 : ℕ) < 2 ^ 64 ∧
    ((Reservation.ReservationSet.mk Reservation.UNSET).set 13).start_addr =
      8 * ((13 + 7) / 8) % 2 ^ 64 ∧
    (∀ (s : Reservation.ReservationSet) (p : ℕ),
      ((s.test_and_unset p).2).start_addr = Reservation.UNSET) ∧
    ((((Reservation.ReservationSet.mk Reservation.UNSET).set 13).test_and_unset 10).1 = true ↔
      Reservation.align_address 10 Reservation.SIZE =
        Reservation.align_address 13 Reservation.SIZE) ∧
    (((((Reservation.ReservationSet.mk Reservation.UNSET).set 13).test_and_unset
        10).2).test_and_unset 16).1 = false :=
  ⟨by norm_num,
   reservation_set_single_use ⟨Reservation.UNSET⟩ 13 10 16 (by norm_num)⟩

/-- Claim C6 failing input: a `u64`-element access (`k = 8`) to a 1-KiB
main memory at address `2 ^ 64 - 8`, which lies far past the end of the
region, is *not* rejected: the `addr as usize + mem::size_of::<E>()`
bounds check wraps around (release-build semantics) and the access
proceeds, so no `OutOfBounds` error is returned. -/
theorem main_memory_bounds_check_wraps :
    1024 - 8 + 1 ≤ (2 : ℕ) ^ 64 - 8 ∧
    MainMemory.readElem 1024 8 (fun _ => 0) (2 ^ 64 - 8) = some 0 ∧
    MainMemory.write_all 1024 (fun _ => 0) (2 ^ 64 - 8) [1, 2, 3, 4, 5, 6, 7, 8] ≠ none := by
  refine ⟨by norm_num, ?_, ?_⟩
  · rw [MainMemory.readElem, if_neg (by norm_num)]
    norm_num [MainMemory.readLE]
  · rw [MainMemory.write_all, if_neg (by norm_num)]
    simp

/-! ## Claims C1, C2, C10 — SBI call handling -/

/-- Claim C1: with `a7 = SBI_FIRMWARE_TEZOS` and `a6 = SBI_TEZOS_INBOX_NEXT`,
handling a U- or S-mode ECALL in status `Evaluating` switches the status
to `WaitingForInput` and returns continue = false; in any other status
`handle_call` returns a fatal `UnexpectedStatus` error and leaves the
status unchanged. -/
theorem sbi_inbox_next_call
    (hS hV hB : Sbi.Machine → Except Sbi.PvmSbiFatalError Bool × Sbi.Machine)
    (s : Sbi.PvmSbiState) (m : Sbi.Machine) (hooks : Sbi.PvmHooks)
    (exc : Sbi.EnvironException)
    (hexc : exc = Sbi.EnvironException.EnvCallFromUMode ∨
      exc = Sbi.EnvironException.EnvCallFromSMode)
    (ha7 : m.xregs Sbi.a7 = Sbi.SBI_FIRMWARE_TEZOS)
    (ha6 : m.xregs Sbi.a6 = Sbi.SBI_TEZOS_INBOX_NEXT) :
    (s.status = Sbi.PvmStatus.Evaluating →
      (Sbi.handle_call hS hV hB s m hooks exc).1 = Except.ok false ∧
      (Sbi.handle_call hS hV hB s m hooks exc).2.1.status = Sbi.PvmStatus.WaitingForInput) ∧
    (s.status ≠ Sbi.PvmStatus.Evaluating →
      (Sbi.handle_call hS hV hB s m hooks exc).1 =
        Except.error (Sbi.PvmSbiFatalError.unexpectedStatus Sbi.PvmStatus.Evaluating s.status) ∧
      (Sbi.handle_call hS hV hB s m hooks exc).2.1 = s) := by
  have hM : ¬ exc = Sbi.EnvironException.EnvCallFromMMode := by
    rcases hexc with h | h <;> simp [h]
  obtain ⟨st⟩ := s
  cases st <;>
    simp [Sbi.handle_call, hM, ha7, ha6, Sbi.SBI_FIRMWARE_TEZOS, Sbi.SBI_CONSOLE_PUTCHAR,
      Sbi.SBI_SHUTDOWN, Sbi.SBI_TEZOS_INBOX_NEXT, Sbi.handle_tezos_inbox_next]

/-- Witness for `sbi_inbox_next_call`: a concrete `Evaluating` machine
whose registers request the inbox-next SBI function. -/
theorem sbi_inbox_next_call_witness :
    (Sbi.Machine.mk 0 (fun i => if i = 17 then Sbi.SBI_FIRMWARE_TEZOS else
        if i = 16 then Sbi.SBI_TEZOS_INBOX_NEXT else 0) fun _ => 0).xregs Sbi.a7 =
      Sbi.SBI_FIRMWARE_TEZOS ∧
    (Sbi.handle_call (fun m => (Except.ok true, m)) (fun m => (Except.ok true, m))
        (fun m => (Except.ok true, m)) ⟨Sbi.PvmStatus.Evaluating⟩
        (Sbi.Machine.mk 0 (fun i => if i = 17 then Sbi.SBI_FIRMWARE_TEZOS else
          if i = 16 then Sbi.SBI_TEZOS_INBOX_NEXT else 0) fun _ => 0)
        ⟨[]⟩ Sbi.EnvironException.EnvCallFromUMode).1 = Except.ok false ∧
    (Sbi.handle_call (fun m => (Except.ok true, m)) (fun m => (Except.ok true, m))
        (fun m => (Except.ok true, m)) ⟨Sbi.PvmStatus.Evaluating⟩
        (Sbi.Machine.mk 0 (fun i => if i = 17 then Sbi.SBI_FIRMWARE_TEZOS else
          if i = 16 then Sbi.SBI_TEZOS_INBOX_NEXT else 0) fun _ => 0)
        ⟨[]⟩ Sbi.EnvironException.EnvCallFromUMode).2.1.status =
      Sbi.PvmStatus.WaitingForInput :=
  ⟨by norm_num [Sbi.a7, Sbi.SBI_FIRMWARE_TEZOS],
   (sbi_inbox_next_call _ _ _ _ _ _ _ (Or.inl rfl)
      (by norm_num [Sbi.a7, Sbi.SBI_FIRMWARE_TEZOS])
      (by norm_num [Sbi.a6, Sbi.a7, Sbi.SBI_TEZOS_INBOX_NEXT])).1 rfl⟩

/-- Claim C10: with `a7 = SBI_CONSOLE_PUTCHAR`, handling a U- or S-mode
ECALL passes exactly one byte — the low byte of `a0` — to the putchar
hook, then overwrites `a0` with 0 and returns continue = true; the PVM
status is untouched. -/
theorem sbi_putchar_clobbers_a0
    (hS hV hB : Sbi.Machine → Except Sbi.PvmSbiFatalError Bool × Sbi.Machine)
    (s : Sbi.PvmSbiState) (m : Sbi.Machine) (hooks : Sbi.PvmHooks)
    (exc : Sbi.EnvironException)
    (hexc : exc = Sbi.EnvironException.EnvCallFromUMode ∨
      exc = Sbi.EnvironException.EnvCallFromSMode)
    (ha7 : m.xregs Sbi.a7 = Sbi.SBI_CONSOLE_PUTCHAR) :
    (Sbi.handle_call hS hV hB s m hooks exc).1 = Except.ok true ∧
    (Sbi.handle_call hS hV hB s m hooks exc).2.2.2.trace =
      hooks.trace ++ [m.xregs Sbi.a0 % 256] ∧
    (Sbi.handle_call hS hV hB s m hooks exc).2.2.1.xregs Sbi.a0 = 0 ∧
    (Sbi.handle_call hS hV hB s m hooks exc).2.1 = s := by
  have hM : ¬ exc = Sbi.EnvironException.EnvCallFromMMode := by
    rcases hexc with h | h <;> simp [h]
  simp [Sbi.handle_call, hM, ha7, Sbi.handle_console_putchar]

/-- Witness for `sbi_putchar_clobbers_a0` at a concrete machine with
`a0 = 0x1ff` (low byte `0xff`). -/
theorem sbi_putchar_clobbers_a0_witness :
    (Sbi.Machine.mk 0 (fun i => if i = 17 then Sbi.SBI_CONSOLE_PUTCHAR else
        if i = 10 then 0x1ff else 0) fun _ => 0).xregs Sbi.a7 = Sbi.SBI_CONSOLE_PUTCHAR ∧
    (Sbi.handle_call (fun m => (Except.ok true, m)) (fun m => (Except.ok true, m))
        (fun m => (Except.ok true, m)) ⟨Sbi.PvmStatus.Evaluating⟩
        (Sbi.Machine.mk 0 (fun i => if i = 17 then Sbi.SBI_CONSOLE_PUTCHAR else
          if i = 10 then 0x1ff else 0) fun _ => 0)
        ⟨[7]⟩ Sbi.EnvironException.EnvCallFromSMode).1 = Except.ok true ∧
    (Sbi.handle_call (fun m => (Except.ok true, m)) (fun m => (Except.ok true, m))
        (fun m => (Except.ok true, m)) ⟨Sbi.PvmStatus.Evaluating⟩
        (Sbi.Machine.mk 0 (fun i => if i = 17 then Sbi.SBI_CONSOLE_PUTCHAR else
          if i = 10 then 0x1ff else 0) fun _ => 0)
        ⟨[7]⟩ Sbi.EnvironException.EnvCallFromSMode).2.2.2.trace =
      [7] ++ [(Sbi.Machine.mk 0 (fun i => if i = 17 then Sbi.SBI_CONSOLE_PUTCHAR else
        if i = 10 then 0x1ff else 0) fun _ => 0).xregs Sbi.a0 % 256] ∧
    (Sbi.handle_call (fun m => (Except.ok true, m)) (fun m => (Except.ok true, m))
        (fun m => (Except.ok true, m)) ⟨Sbi.PvmStatus.Evaluating⟩
        (Sbi.Machine.mk 0 (fun i => if i = 17 then Sbi.SBI_CONSOLE_PUTCHAR else
          if i = 10 then 0x1ff else 0) fun _ => 0)
        ⟨[7]⟩ Sbi.EnvironException.EnvCallFromSMode).2.2.1.xregs Sbi.a0 = 0 :=
  have h := sbi_putchar_clobbers_a0 (fun m => (Except.ok true, m))
    (fun m => (Except.ok true, m)) (fun m => (Except.ok true, m))
    ⟨Sbi.PvmStatus.Evaluating⟩
    (Sbi.Machine.mk 0 (fun i => if i = 17 then Sbi.SBI_CONSOLE_PUTCHAR else
      if i = 10 then 0x1ff else 0) fun _ => 0)
    ⟨[7]⟩ Sbi.EnvironException.EnvCallFromSMode (Or.inr rfl)
    (by norm_num [Sbi.a7, Sbi.SBI_CONSOLE_PUTCHAR])
  ⟨by norm_num [Sbi.a7, Sbi.SBI_CONSOLE_PUTCHAR], h.1, h.2.1, h.2.2.1⟩

/-- Claim C2: `provide_input` returns false and changes nothing unless the
status is `WaitingForInput`; when it is, the status returns to
`Evaluating` and either (successful translation and write) exactly
`min(a1, payload.length)` payload bytes are written at the translated
address taken from `a0` and the registers `a0`, `a1`, `a2` receive
`level`, `counter` and the number of bytes written, or (translation or
write failure) the three registers are all zeroed and memory is left
untouched. -/
theorem sbi_provide_input_spec (BYTES : ℕ)
    (translate : Sbi.Machine → ℕ → Sbi.AccessType → Option ℕ)
    (s : Sbi.PvmSbiState) (m : Sbi.Machine) (level counter : ℕ) (payload : List ℕ) :
    (s.status ≠ Sbi.PvmStatus.WaitingForInput →
      Sbi.provide_input BYTES translate s m level counter payload = (false, s, m)) ∧
    (s.status = Sbi.PvmStatus.WaitingForInput →
      (Sbi.provide_input BYTES translate s m level counter payload).1 = true ∧
      (Sbi.provide_input BYTES translate s m level counter payload).2.1.status =
        Sbi.PvmStatus.Evaluating ∧
      (((translate m (m.xregs Sbi.a0) Sbi.AccessType.Store = none ∨
          ∃ phys, translate m (m.xregs Sbi.a0) Sbi.AccessType.Store = some phys ∧
            MainMemory.write_all BYTES m.mem phys
              (payload.take (min (m.xregs Sbi.a1) payload.length)) = none) ∧
        (Sbi.provide_input BYTES translate s m level counter payload).2.2.xregs Sbi.a0 = 0 ∧
        (Sbi.provide_input BYTES translate s m level counter payload).2.2.xregs Sbi.a1 = 0 ∧
        (Sbi.provide_input BYTES translate s m level counter payload).2.2.xregs Sbi.a2 = 0 ∧
        (Sbi.provide_input BYTES translate s m level counter payload).2.2.mem = m.mem) ∨
       (∃ phys mem', translate m (m.xregs Sbi.a0) Sbi.AccessType.Store = some phys ∧
          MainMemory.write_all BYTES m.mem phys
            (payload.take (min (m.xregs Sbi.a1) payload.length)) = some mem' ∧
          (Sbi.provide_input BYTES translate s m level counter payload).2.2.xregs Sbi.a0 =
            level ∧
          (Sbi.provide_input BYTES translate s m level counter payload).2.2.xregs Sbi.a1 =
            counter ∧
          (Sbi.provide_input BYTES translate s m level counter payload).2.2.xregs Sbi.a2 =
            min (m.xregs Sbi.a1) payload.length ∧
          (Sbi.provide_input BYTES translate s m level counter payload).2.2.mem = mem' ∧
          (∀ i, phys ≤ i → i < phys + min (m.xregs Sbi.a1) payload.length →
            mem' i = payload.getD (i - phys) 0) ∧
          (∀ i, i < phys ∨ phys + min (m.xregs Sbi.a1) payload.length ≤ i →
            mem' i = m.mem i)))) := by
  obtain ⟨st⟩ := s
  constructor
  · intro hne
    cases st <;> simp_all [Sbi.provide_input]
  · intro hst
    simp only [Sbi.PvmSbiState.status] at hst
    subst hst
    set n := min (m.xregs Sbi.a1) payload.length with hn
    rcases htr : translate m (m.xregs Sbi.a0) Sbi.AccessType.Store with _ | phys
    · have htr10 : translate m (m.xregs 10) Sbi.AccessType.Store = none := htr
      refine ⟨?_, ?_, Or.inl ⟨Or.inl rfl, ?_, ?_, ?_, ?_⟩⟩ <;>
        simp [Sbi.provide_input, htr10, Sbi.a0, Sbi.a1, Sbi.a2]
    · have htr10 : translate m (m.xregs 10) Sbi.AccessType.Store = some phys := htr
      rcases hwr : MainMemory.write_all BYTES m.mem phys (payload.take n) with _ | mem2
      · have hwr11 : MainMemory.write_all BYTES m.mem phys
            (payload.take (min (m.xregs 11) payload.length)) = none := hwr
        refine ⟨?_, ?_, Or.inl ⟨Or.inr ⟨phys, rfl, hwr⟩, ?_, ?_, ?_, ?_⟩⟩ <;>
          simp [Sbi.provide_input, htr10, hwr11, Sbi.a0, Sbi.a1, Sbi.a2]
      · have hwr11 : MainMemory.write_all BYTES m.mem phys
            (payload.take (min (m.xregs 11) payload.length)) = some mem2 := hwr
        have hlen : (payload.take n).length = n := by
          rw [List.length_take]
          omega
        have hmem2 : mem2 = fun i => if phys ≤ i ∧ i < phys + n then
            (payload.take n).getD (i - phys) 0 else m.mem i := by
          by_cases hb : (phys + (payload.take n).length) % 2 ^ 64 > BYTES
          · rw [MainMemory.write_all, if_pos hb] at hwr
            exact absurd hwr (by simp)
          · rw [MainMemory.write_all, if_neg hb] at hwr
            rw [hlen] at hwr
            exact (Option.some_injective _ hwr).symm
        refine ⟨?_, ?_, Or.inr ⟨phys, mem2, rfl, hwr, ?_, ?_, ?_, ?_, ?_, ?_⟩⟩
        · simp [Sbi.provide_input, htr10, hwr11, Sbi.a0, Sbi.a1, Sbi.a2]
        · simp [Sbi.provide_input, htr10, hwr11, Sbi.a0, Sbi.a1, Sbi.a2]
        · simp [Sbi.provide_input, htr10, hwr11, Sbi.a0, Sbi.a1, Sbi.a2]
        · simp [Sbi.provide_input, htr10, hwr11, Sbi.a0, Sbi.a1, Sbi.a2]
        · simp [Sbi.provide_input, htr10, hwr11, Sbi.a0, Sbi.a1, Sbi.a2, hn]
        · simp [Sbi.provide_input, htr10, hwr11, Sbi.a0, Sbi.a1, Sbi.a2]
        · intro i h1 h2
          have hmem := congrFun hmem2 i
          rw [hmem, if_pos ⟨h1, h2⟩]
          have hlt : i - phys < n := by omega
          rw [List.getD_eq_getElem?_getD, List.getD_eq_getElem?_getD,
            List.getElem?_take_of_lt hlt]
        · intro i hi
          have hmem := congrFun hmem2 i
          rw [hmem, if_neg (by omega)]

/-- Witness for `sbi_provide_input_spec`: a waiting machine with buffer
size 2 receives a 3-byte payload through the identity translation. -/
theorem sbi_provide_input_spec_witness :
    (Sbi.PvmSbiState.mk Sbi.PvmStatus.WaitingForInput).status =
      Sbi.PvmStatus.WaitingForInput ∧
    (Sbi.provide_input 1024 (fun _ addr _ => some addr)
      ⟨Sbi.PvmStatus.WaitingForInput⟩
      (Sbi.Machine.mk 0 (fun i => if i = 11 then 2 else 0) fun _ => 0)
      7 3 [170, 187, 204]).1 = true ∧
    (Sbi.provide_input 1024 (fun _ addr _ => some addr)
      ⟨Sbi.PvmStatus.WaitingForInput⟩
      (Sbi.Machine.mk 0 (fun i => if i = 11 then 2 else 0) fun _ => 0)
      7 3 [170, 187, 204]).2.1.status = Sbi.PvmStatus.Evaluating :=
  have h := (sbi_provide_input_spec 1024 (fun _ addr _ => some addr)
    ⟨Sbi.PvmStatus.WaitingForInput⟩
    (Sbi.Machine.mk 0 (fun i => if i = 11 then 2 else 0) fun _ => 0)
    7 3 [170, 187, 204]).2 rfl
  ⟨rfl, h.1, h.2.1⟩

namespace Eval

theorem step_range_zero (cont : List StepEvent → Bool) (tr : List StepEvent) :
    step_range cont 0 tr = ⟨0, none, tr⟩ := rfl

theorem step_range_succ_nil (cont : List StepEvent → Bool) (b : ℕ) :
    step_range cont (b + 1) [] = ⟨0, none, []⟩ := rfl

theorem step_range_succ_ok (cont : List StepEvent → Bool) (b : ℕ)
    (tr : List StepEvent) (hc : cont (StepEvent.ok :: tr) = true) :
    step_range cont (b + 1) (StepEvent.ok :: tr) =
      ⟨(step_range cont b tr).steps + 1, (step_range cont b tr).exception,
        (step_range cont b tr).rest⟩ := by
  have heq : step_range cont (b + 1) (StepEvent.ok :: tr) =
      if cont (StepEvent.ok :: tr) then
        ⟨(step_range cont b tr).steps + 1, (step_range cont b tr).exception,
          (step_range cont b tr).rest⟩
      else ⟨0, none, StepEvent.ok :: tr⟩ := rfl
  rw [heq, if_pos hc]

theorem step_range_succ_trap (cont : List StepEvent → Bool) (b : ℕ)
    (o : EcallOutcome) (tr : List StepEvent)
    (hc : cont (StepEvent.trap o :: tr) = true) :
    step_range cont (b + 1) (StepEvent.trap o :: tr) = ⟨0, some o, tr⟩ := by
  have heq : step_range cont (b + 1) (StepEvent.trap o :: tr) =
      if cont (StepEvent.trap o :: tr) then ⟨0, some o, tr⟩
      else ⟨0, none, StepEvent.trap o :: tr⟩ := rfl
  rw [heq, if_pos hc]

theorem step_range_succ_stop (cont : List StepEvent → Bool) (b : ℕ)
    (e : StepEvent) (tr : List StepEvent) (hc : ¬ cont (e :: tr) = true) :
    step_range cont (b + 1) (e :: tr) = ⟨0, none, e :: tr⟩ := by
  cases e with
  | ok =>
    have heq : step_range cont (b + 1) (StepEvent.ok :: tr) =
        if cont (StepEvent.ok :: tr) then
          ⟨(step_range cont b tr).steps + 1, (step_range cont b tr).exception,
            (step_range cont b tr).rest⟩
        else ⟨0, none, StepEvent.ok :: tr⟩ := rfl
    rw [heq, if_neg hc]
  | trap o =>
    have heq : step_range cont (b + 1) (StepEvent.trap o :: tr) =
        if cont (StepEvent.trap o :: tr) then ⟨0, some o, tr⟩
        else ⟨0, none, StepEvent.trap o :: tr⟩ := rfl
    rw [heq, if_neg hc]

theorem step_range_consumed (cont : List StepEvent → Bool) :
    ∀ (b : ℕ) (tr : List StepEvent),
    ∃ c, tr = c ++ (step_range cont b tr).rest ∧
      (c.filter isOk).length = (step_range cont b tr).steps ∧
      (c.filter isTrap).length =
        (if (step_range cont b tr).exception.isSome then 1 else 0) := by
  intro b
  induction b with
  | zero =>
    intro tr
    exact ⟨[], by simp [step_range_zero]⟩
  | succ b ih =>
    intro tr
    cases tr with
    | nil => exact ⟨[], by simp [step_range_succ_nil]⟩
    | cons e tr =>
      by_cases hc : cont (e :: tr) = true
      · cases e with
        | ok =>
          obtain ⟨c, hsplit, hok, htrap⟩ := ih tr
          refine ⟨StepEvent.ok :: c, ?_, ?_, ?_⟩ <;>
            simp [step_range_succ_ok cont b tr hc, isOk, isTrap, ← hsplit, hok, htrap]
        | trap o =>
          refine ⟨[StepEvent.trap o], ?_, ?_, ?_⟩ <;>
            simp [step_range_succ_trap cont b o tr hc, isOk, isTrap]
      · exact ⟨[], by simp [step_range_succ_stop cont b e tr hc]⟩

theorem eval_range_loop_none (cont : List StepEvent → Bool) (minB maxB total : ℕ)
    (tr : List StepEvent) (h : (step_range cont maxB tr).exception = none) :
    eval_range_loop cont minB maxB total tr =
      ⟨total + (step_range cont maxB tr).steps, false, (step_range cont maxB tr).rest⟩ := by
  unfold eval_range_loop
  split <;> simp_all

theorem eval_range_loop_fatal (cont : List StepEvent → Bool) (minB maxB total : ℕ)
    (tr : List StepEvent)
    (h : (step_range cont maxB tr).exception = some EcallOutcome.fatal) :
    eval_range_loop cont minB maxB total tr =
      ⟨total + (step_range cont maxB tr).steps + 1, true,
        (step_range cont maxB tr).rest⟩ := by
  unfold eval_range_loop
  split <;> simp_all

theorem eval_range_loop_stop (cont : List StepEvent → Bool) (minB maxB total : ℕ)
    (tr : List StepEvent)
    (h : (step_range cont maxB tr).exception = some (EcallOutcome.handled false)) :
    eval_range_loop cont minB maxB total tr =
      ⟨total + (step_range cont maxB tr).steps + 1, false,
        (step_range cont maxB tr).rest⟩ := by
  unfold eval_range_loop
  split <;> simp_all

theorem eval_range_loop_resume (cont : List StepEvent → Bool) (minB maxB total : ℕ)
    (tr : List StepEvent)
    (h : (step_range cont maxB tr).exception = some (EcallOutcome.handled true)) :
    eval_range_loop cont minB maxB total tr =
      eval_range_loop cont (minB - ((step_range cont maxB tr).steps + 1))
        (maxB - ((step_range cont maxB tr).steps + 1))
        (total + (step_range cont maxB tr).steps + 1)
        (step_range cont maxB tr).rest := by
  conv_lhs => rw [eval_range_loop]
  split <;> simp_all

theorem eval_range_loop_spec (cont : List StepEvent → Bool)
    (minB maxB total : ℕ) (tr : List StepEvent) :
    ∃ c, tr = c ++ (eval_range_loop cont minB maxB total tr).rest ∧
      (eval_range_loop cont minB maxB total tr).steps =
        total + (c.filter isOk).length + (c.filter isTrap).length := by
  induction minB, maxB, total, tr using eval_range_loop.induct cont with
  | case1 minB maxB total tr hx =>
    obtain ⟨c, hsplit, hok, htrap⟩ := step_range_consumed cont maxB tr
    rw [hx] at htrap
    rw [eval_range_loop_none cont minB maxB total tr hx]
    simp only [Option.isSome_none, Bool.false_eq_true, if_false] at htrap
    exact ⟨c, hsplit, by dsimp only; omega⟩
  | case2 minB maxB total tr hx =>
    obtain ⟨c, hsplit, hok, htrap⟩ := step_range_consumed cont maxB tr
    rw [hx] at htrap
    rw [eval_range_loop_fatal cont minB maxB total tr hx]
    simp only [Option.isSome_some, if_true] at htrap
    exact ⟨c, hsplit, by dsimp only; omega⟩
  | case3 minB maxB total tr hx =>
    obtain ⟨c, hsplit, hok, htrap⟩ := step_range_consumed cont maxB tr
    rw [hx] at htrap
    rw [eval_range_loop_stop cont minB maxB total tr hx]
    simp only [Option.isSome_some, if_true] at htrap
    exact ⟨c, hsplit, by dsimp only; omega⟩
  | case4 minB maxB total tr hx ih =>
    obtain ⟨c1, hsplit1, hok1, htrap1⟩ := step_range_consumed cont maxB tr
    rw [hx] at htrap1
    simp only [Option.isSome_some, if_true] at htrap1
    obtain ⟨c2, hsplit2, hsteps2⟩ := ih
    rw [eval_range_loop_resume cont minB maxB total tr hx]
    refine ⟨c1 ++ c2, ?_, ?_⟩
    · rw [List.append_assoc, ← hsplit2, ← hsplit1]
    · rw [hsteps2]
      simp only [List.filter_append, List.length_append]
      omega

/-- Claim C3: the step count returned by `eval_range` equals the number of
steps executed normally plus exactly one for each environment-call
exception whose handling was attempted (`Handled` or `Fatal` alike):
the events consumed from the execution trace form a prefix of it, and
each consumed trap contributes exactly one to the count — never two,
even across resumptions of the inner stepping loop. -/
theorem eval_range_counts_each_exception_once (cont : List StepEvent → Bool)
    (minB maxB : ℕ) (tr : List StepEvent) :
    ∃ consumed, tr = consumed ++ (eval_range cont minB maxB tr).rest ∧
      (eval_range cont minB maxB tr).steps =
        (consumed.filter isOk).length + (consumed.filter isTrap).length := by
  obtain ⟨c, hsplit, hsteps⟩ := eval_range_loop_spec cont minB maxB 0 tr
  exact ⟨c, hsplit, by simpa using hsteps⟩

end Eval

namespace Csr

theorem make_sstatus (v : ℕ) :
    make_value_writable sstatus v =
      some (sstatus_normalise (v &&& WPRI_MASK_SSTATUS)) := by
  norm_num [make_value_writable, transform_warl_fields, clear_wpri_fields, wpri_mask,
    is_legal, legal_values, fflags, frm, fcsr, sstatus, sie, stvec, senvcfg, sepc, scause,
    sip, satp, mstatus, misa, medeleg, mideleg, mie, mtvec, menvcfg, mepc, mcause, mip,
    mseccfg, mnepc, mncause, mnstatus]

theorem make_sip (v : ℕ) :
    make_value_writable sip v = some (v &&& WARL_MASK_SIP_SIE) := by
  norm_num [make_value_writable, transform_warl_fields, clear_wpri_fields, wpri_mask,
    is_legal, legal_values, fflags, frm, fcsr, sstatus, sie, stvec, senvcfg, sepc, scause,
    sip, satp, mstatus, misa, medeleg, mideleg, mie, mtvec, menvcfg, mepc, mcause, mip,
    mseccfg, mnepc, mncause, mnstatus]
  rw [land_land, show WPRI_MASK_EMPTY &&& WARL_MASK_SIP_SIE = WARL_MASK_SIP_SIE from by
    decide]

theorem make_sie (v : ℕ) :
    make_value_writable sie v = some (v &&& WARL_MASK_SIP_SIE) := by
  norm_num [make_value_writable, transform_warl_fields, clear_wpri_fields, wpri_mask,
    is_legal, legal_values, fflags, frm, fcsr, sstatus, sie, stvec, senvcfg, sepc, scause,
    sip, satp, mstatus, misa, medeleg, mideleg, mie, mtvec, menvcfg, mepc, mcause, mip,
    mseccfg, mnepc, mncause, mnstatus]
  rw [land_land, show WPRI_MASK_EMPTY &&& WARL_MASK_SIP_SIE = WARL_MASK_SIP_SIE from by
    decide]

theorem make_fcsr (v : ℕ) (hv : v < 2 ^ 64) : make_value_writable fcsr v = some v := by
  norm_num [make_value_writable, transform_warl_fields, clear_wpri_fields, wpri_mask,
    is_legal, legal_values, fflags, frm, fcsr, sstatus, sie, stvec, senvcfg, sepc, scause,
    sip, satp, mstatus, misa, medeleg, mideleg, mie, mtvec, menvcfg, mepc, mcause, mip,
    mseccfg, mnepc, mncause, mnstatus]
  rw [WPRI_MASK_EMPTY, MASK64, Nat.and_pow_two_sub_one_of_lt_two_pow hv]

theorem make_frm (v : ℕ) (hv : v < 2 ^ 64) : make_value_writable frm v = some v := by
  norm_num [make_value_writable, transform_warl_fields, clear_wpri_fields, wpri_mask,
    is_legal, legal_values, fflags, frm, fcsr, sstatus, sie, stvec, senvcfg, sepc, scause,
    sip, satp, mstatus, misa, medeleg, mideleg, mie, mtvec, menvcfg, mepc, mcause, mip,
    mseccfg, mnepc, mncause, mnstatus]
  rw [WPRI_MASK_EMPTY, MASK64, Nat.and_pow_two_sub_one_of_lt_two_pow hv]

theorem make_fflags (v : ℕ) (hv : v < 2 ^ 64) : make_value_writable fflags v = some v := by
  norm_num [make_value_writable, transform_warl_fields, clear_wpri_fields, wpri_mask,
    is_legal, legal_values, fflags, frm, fcsr, sstatus, sie, stvec, senvcfg, sepc, scause,
    sip, satp, mstatus, misa, medeleg, mideleg, mie, mtvec, menvcfg, mepc, mcause, mip,
    mseccfg, mnepc, mncause, mnstatus]
  rw [WPRI_MASK_EMPTY, MASK64, Nat.and_pow_two_sub_one_of_lt_two_pow hv]

theorem normExt_cases (y : ℕ) (h : y ≤ 3) :
    normExt y = 0 ∨ normExt y = 1 ∨ normExt y = 3 := by
  unfold normExt
  interval_cases y <;> simp

theorem sstatus_normalise_land (x : ℕ) :
    sstatus_normalise x &&& SSTATUS_ALL_MASK = sstatus_normalise x := by
  unfold sstatus_normalise
  have hfs := normExt_cases ((x >>> 13) &&& 3) Nat.and_le_right
  have hxs := normExt_cases ((x >>> 15) &&& 3) Nat.and_le_right
  set a := normExt ((x >>> 13) &&& 3) with ha
  set b := normExt ((x >>> 15) &&& 3) with hb
  rw [land_lor_right, land_lor_right, land_lor_right, land_lor_right]
  have h1 : (x &&& SSTATUS_BOOL_MASK) &&& SSTATUS_ALL_MASK = x &&& SSTATUS_BOOL_MASK := by
    rw [land_land,
      show SSTATUS_BOOL_MASK &&& SSTATUS_ALL_MASK = SSTATUS_BOOL_MASK from by decide]
  have h2 : (a <<< 13) &&& SSTATUS_ALL_MASK = a <<< 13 := by
    rcases hfs with h | h | h <;> rw [h] <;> decide
  have h3 : (b <<< 15) &&& SSTATUS_ALL_MASK = b <<< 15 := by
    rcases hxs with h | h | h <;> rw [h] <;> decide
  have h4 : ((2 : ℕ) <<< 32) &&& SSTATUS_ALL_MASK = 2 <<< 32 := by decide
  have h5 : ((if a = 3 ∨ b = 3 then 1 else 0) <<< 63) &&& SSTATUS_ALL_MASK =
      (if a = 3 ∨ b = 3 then 1 else 0) <<< 63 := by
    by_cases h : a = 3 ∨ b = 3 <;> simp only [h, if_pos, if_neg, if_true, if_false] <;>
      decide
  rw [h1, h2, h3, h4, h5]

theorem frm_shift_mask (w : ℕ) : ((w <<< 5) &&& FRM_MASK) >>> 5 = w &&& 7 := by
  apply Nat.eq_of_testBit_eq
  intro i
  simp only [FRM_MASK, FRM_SHIFT, Nat.testBit_shiftRight, Nat.testBit_land,
    Nat.testBit_shiftLeft]
  have h5 : 5 ≤ 5 + i := Nat.le_add_right 5 i
  rw [decide_eq_true h5]
  simp only [Nat.add_sub_cancel_left, Bool.true_and]

end Csr

namespace Csr

theorem read_sstatus (f : CsrFile) : read f sstatus = mstatus_to_sstatus (f mstatus) := by
  norm_num [read, shadow_source, transform_read, sstatus, sip, sie, fcsr, frm, fflags]

theorem read_mstatus (f : CsrFile) : read f mstatus = f mstatus := by
  norm_num [read, shadow_source, transform_read, mstatus, sstatus, sip, sie, fcsr, frm,
    fflags]

theorem read_mie (f : CsrFile) : read f mie = f mie := by
  norm_num [read, shadow_source, transform_read, mie, sstatus, sip, sie, fcsr, frm, fflags]

theorem read_mip (f : CsrFile) : read f mip = f mip := by
  norm_num [read, shadow_source, transform_read, mip, sstatus, sip, sie, fcsr, frm, fflags]

theorem read_sip (f : CsrFile) : read f sip = f mip &&& WARL_MASK_SIP_SIE := by
  norm_num [read, shadow_source, transform_read, sip, sstatus, sie, fcsr, frm, fflags]

theorem read_sie (f : CsrFile) : read f sie = f mie &&& WARL_MASK_SIP_SIE := by
  norm_num [read, shadow_source, transform_read, sie, sstatus, sip, fcsr, frm, fflags]

theorem read_fcsr (f : CsrFile) : read f fcsr = f fcsr &&& FCSR_MASK := by
  norm_num [read, shadow_source, transform_read, fcsr, sstatus, sip, sie, frm, fflags]

theorem read_frm (f : CsrFile) : read f frm = (f fcsr &&& FRM_MASK) >>> FRM_SHIFT := by
  norm_num [read, shadow_source, transform_read, frm, sstatus, sip, sie, fcsr, fflags]

theorem read_fflags (f : CsrFile) : read f fflags = f fcsr &&& FFLAGS_MASK := by
  norm_num [read, shadow_source, transform_read, fflags, sstatus, sip, sie, fcsr, frm]

theorem write_sstatus (f : CsrFile) (v : ℕ) :
    write f sstatus v = Function.update f mstatus
      (sstatus_to_mstatus (sstatus_normalise (v &&& WPRI_MASK_SSTATUS)) (f mstatus)) := by
  simp only [write, make_sstatus]
  norm_num [transform_write, sstatus, sip, sie, fcsr, frm, fflags]

theorem write_sip (f : CsrFile) (v : ℕ) :
    write f sip v = Function.update f mip
      ((v &&& WARL_MASK_SIP_SIE) ||| (f mip &&& compl64 WARL_MASK_SIP_SIE)) := by
  simp only [write, make_sip]
  norm_num [transform_write, sip, sstatus, sie, fcsr, frm, fflags]
  rw [land_land,
    show WARL_MASK_SIP_SIE &&& WARL_MASK_SIP_SIE = WARL_MASK_SIP_SIE from by decide]

theorem write_sie (f : CsrFile) (v : ℕ) :
    write f sie v = Function.update f mie
      ((v &&& WARL_MASK_SIP_SIE) ||| (f mie &&& compl64 WARL_MASK_SIP_SIE)) := by
  simp only [write, make_sie]
  norm_num [transform_write, sie, sstatus, sip, fcsr, frm, fflags]
  rw [land_land,
    show WARL_MASK_SIP_SIE &&& WARL_MASK_SIP_SIE = WARL_MASK_SIP_SIE from by decide]

theorem write_fcsr (f : CsrFile) (v : ℕ) (hv : v < 2 ^ 64) :
    write f fcsr v = Function.update f fcsr (v &&& FCSR_MASK) := by
  simp only [write, make_fcsr v hv]
  norm_num [transform_write, fcsr, sstatus, sip, sie, frm, fflags]

theorem shadow_source_default (r : ℕ) (h1 : r ≠ sstatus) (h2 : r ≠ sip) (h3 : r ≠ sie)
    (h4 : r ≠ fflags) (h5 : r ≠ frm) : shadow_source r = r := by
  simp [shadow_source, h1, h2, h3, h4, h5]

theorem transform_read_default (r sv : ℕ) (h1 : r ≠ sstatus) (h2 : r ≠ sip)
    (h3 : r ≠ sie) (h4 : r ≠ fcsr) (h5 : r ≠ frm) (h6 : r ≠ fflags) :
    transform_read r sv = sv := by
  simp [transform_read, h1, h2, h3, h4, h5, h6]

theorem transform_write_default (f : CsrFile) (r v : ℕ) (h1 : r ≠ sstatus) (h2 : r ≠ sip)
    (h3 : r ≠ sie) (h4 : r ≠ fcsr) (h5 : r ≠ frm) (h6 : r ≠ fflags) :
    transform_write f r v = (r, v) := by
  simp [transform_write, h1, h2, h3, h4, h5, h6]

theorem read_back_default (r w : ℕ) (h4 : r ≠ fcsr) (h5 : r ≠ frm) (h6 : r ≠ fflags) :
    read_back r w = w := by
  simp [read_back, h4, h5, h6]

end Csr

namespace Csr

theorem write_frm (f : CsrFile) (v : ℕ) (hv : v < 2 ^ 64) :
    write f frm v = Function.update f fcsr
      (((v <<< FRM_SHIFT) &&& FRM_MASK) ||| (f fcsr &&& compl64 FRM_MASK)) := by
  simp only [write, make_frm v hv]
  norm_num [transform_write, frm, sstatus, sip, sie, fcsr, fflags]

theorem write_fflags (f : CsrFile) (v : ℕ) (hv : v < 2 ^ 64) :
    write f fflags v = Function.update f fcsr
      ((v &&& FFLAGS_MASK) ||| (f fcsr &&& compl64 FFLAGS_MASK)) := by
  simp only [write, make_fflags v hv]
  norm_num [transform_write, fflags, sstatus, sip, sie, fcsr, frm]

end Csr

/-! ## Claims C4 and C5 — CSR round-trip and shadow-write framing -/

/-- Claim C4, amended: for every writable CSR register `r` and 64-bit
value `v`, if `make_value_writable(r, v) = Some w` then reading `r`
right after `write(r, v)` returns `w` — except for the floating-point
shadow registers `fcsr`, `frm` and `fflags`, where the read-back equals
`w` masked to the register's own field (`w & 0xff`, `w & 0b111`,
`w & 0b11111` respectively); if `make_value_writable(r, v) = None`, the
write is a no-op and the value read from `r` is unchanged. -/
theorem csr_write_read_roundtrip (r : ℕ) (hr : Csr.IsCSRegister r)
    (hro : Csr.is_read_only r = false) (v : ℕ) (hv : v < 2 ^ 64) (f : Csr.CsrFile) :
    (∀ w, Csr.make_value_writable r v = some w →
      Csr.read (Csr.write f r v) r = Csr.read_back r w) ∧
    (Csr.make_value_writable r v = none →
      Csr.read (Csr.write f r v) r = Csr.read f r) := by
  constructor
  · intro w hmk
    by_cases h1 : r = Csr.sstatus
    · subst h1
      rw [Csr.make_sstatus] at hmk
      obtain rfl := Option.some.inj hmk
      rw [Csr.write_sstatus, Csr.read_sstatus, Function.update_same,
        Csr.read_back_default _ _ (by decide) (by decide) (by decide)]
      unfold Csr.mstatus_to_sstatus Csr.sstatus_to_mstatus
      rw [land_lor_right, land_land, land_land,
        show compl64 Csr.SSTATUS_ALL_MASK &&& Csr.SSTATUS_ALL_MASK = 0 from by decide,
        show Csr.SSTATUS_ALL_MASK &&& Csr.SSTATUS_ALL_MASK = Csr.SSTATUS_ALL_MASK from by
          decide,
        Nat.and_zero, Nat.zero_or]
      exact Csr.sstatus_normalise_land _
    · by_cases h2 : r = Csr.sip
      · subst h2
        rw [Csr.make_sip] at hmk
        obtain rfl := Option.some.inj hmk
        rw [Csr.write_sip, Csr.read_sip, Function.update_same,
          Csr.read_back_default _ _ (by decide) (by decide) (by decide)]
        rw [land_lor_right, land_land, land_land,
          show Csr.WARL_MASK_SIP_SIE &&& Csr.WARL_MASK_SIP_SIE = Csr.WARL_MASK_SIP_SIE
            from by decide,
          show compl64 Csr.WARL_MASK_SIP_SIE &&& Csr.WARL_MASK_SIP_SIE = 0 from by decide,
          Nat.and_zero, Nat.or_zero]
      · by_cases h3 : r = Csr.sie
        · subst h3
          rw [Csr.make_sie] at hmk
          obtain rfl := Option.some.inj hmk
          rw [Csr.write_sie, Csr.read_sie, Function.update_same,
            Csr.read_back_default _ _ (by decide) (by decide) (by decide)]
          rw [land_lor_right, land_land, land_land,
            show Csr.WARL_MASK_SIP_SIE &&& Csr.WARL_MASK_SIP_SIE = Csr.WARL_MASK_SIP_SIE
              from by decide,
            show compl64 Csr.WARL_MASK_SIP_SIE &&& Csr.WARL_MASK_SIP_SIE = 0 from by
              decide,
            Nat.and_zero, Nat.or_zero]
        · by_cases h4 : r = Csr.fcsr
          · subst h4
            rw [Csr.make_fcsr v hv] at hmk
            obtain rfl := Option.some.inj hmk
            rw [Csr.write_fcsr f v hv, Csr.read_fcsr, Function.update_same, land_land,
              show Csr.FCSR_MASK &&& Csr.FCSR_MASK = Csr.FCSR_MASK from by decide]
            norm_num [Csr.read_back, Csr.fcsr]
          · by_cases h5 : r = Csr.frm
            · subst h5
              rw [Csr.make_frm v hv] at hmk
              obtain rfl := Option.some.inj hmk
              rw [Csr.write_frm f v hv, Csr.read_frm, Function.update_same,
                land_lor_right, land_land, land_land,
                show Csr.FRM_MASK &&& Csr.FRM_MASK = Csr.FRM_MASK from by decide,
                show compl64 Csr.FRM_MASK &&& Csr.FRM_MASK = 0 from by decide,
                Nat.and_zero, Nat.or_zero]
              rw [show ((v <<< Csr.FRM_SHIFT) &&& Csr.FRM_MASK) >>> Csr.FRM_SHIFT =
                  v &&& 7 from Csr.frm_shift_mask v]
              norm_num [Csr.read_back, Csr.frm, Csr.fcsr]
            · by_cases h6 : r = Csr.fflags
              · subst h6
                rw [Csr.make_fflags v hv] at hmk
                obtain rfl := Option.some.inj hmk
                rw [Csr.write_fflags f v hv, Csr.read_fflags, Function.update_same,
                  land_lor_right, land_land, land_land,
                  show Csr.FFLAGS_MASK &&& Csr.FFLAGS_MASK = Csr.FFLAGS_MASK from by
                    decide,
                  show compl64 Csr.FFLAGS_MASK &&& Csr.FFLAGS_MASK = 0 from by decide,
                  Nat.and_zero, Nat.or_zero]
                norm_num [Csr.read_back, Csr.fflags, Csr.fcsr, Csr.frm]
              · have hwr : Csr.write f r v = Function.update f r w := by
                  simp only [Csr.write, hmk,
                    Csr.transform_write_default f r w h1 h2 h3 h4 h5 h6]
                rw [hwr, Csr.read, Csr.shadow_source_default r h1 h2 h3 h6 h5,
                  Function.update_same,
                  Csr.transform_read_default r w h1 h2 h3 h4 h5 h6,
                  Csr.read_back_default r w h4 h5 h6]
  · intro hnone
    simp only [Csr.write, hnone]

/-- Witness for `csr_write_read_roundtrip`: writing `0xFFFF` to `sip`
legalises it to `0x222` and reads back exactly that. -/
theorem csr_write_read_roundtrip_witness :
    Csr.IsCSRegister Csr.sip ∧ Csr.is_read_only Csr.sip = false ∧ (0xFFFF : ℕ) < 2 ^ 64 ∧
    Csr.make_value_writable Csr.sip 0xFFFF = some 0x222 ∧
    Csr.read (Csr.write (fun _ => 0) Csr.sip 0xFFFF) Csr.sip =
      Csr.read_back Csr.sip 0x222 :=
  ⟨by decide, by decide, by norm_num,
   by decide,
   (csr_write_read_roundtrip Csr.sip (by decide) (by decide) 0xFFFF (by norm_num)
     (fun _ => 0)).1 0x222 (by decide)⟩

/-- Claim C4 counterexample (the claim as stated is false): `frm` is a writable
CSR and `make_value_writable(frm, 8) = Some 8`, yet reading `frm`
immediately after `write(frm, 8)` returns `0`, not `8`: the write is
redirected into the `frm` bit-field of `fcsr` and only the low three
bits survive. -/
theorem csr_roundtrip_counterexample :
    Csr.IsCSRegister Csr.frm ∧ Csr.is_read_only Csr.frm = false ∧
    Csr.make_value_writable Csr.frm 8 = some 8 ∧
    Csr.read (Csr.write (fun _ => 0) Csr.frm 8) Csr.frm = 0 ∧ (0 : ℕ) ≠ 8 := by
  exact ⟨by decide, by decide, by decide, by decide, by decide⟩

/-- Claim C5: a write to a shadow register (`sstatus`, `sie`, `sip`)
modifies only the shadowed bit positions of its ground-truth register
(`mstatus`, `mie`, `mip`): all non-shadowed bits — in particular the
machine-only interrupt bits MSIP/MTIP/MEIP of `mie`/`mip` — read the
same before and after the shadow write. -/
theorem csr_shadow_write_frame (v : ℕ) (f : Csr.CsrFile) :
    (Csr.read (Csr.write f Csr.sstatus v) Csr.mstatus &&& compl64 Csr.SSTATUS_ALL_MASK =
      Csr.read f Csr.mstatus &&& compl64 Csr.SSTATUS_ALL_MASK) ∧
    (Csr.read (Csr.write f Csr.sie v) Csr.mie &&& compl64 Csr.WARL_MASK_SIP_SIE =
      Csr.read f Csr.mie &&& compl64 Csr.WARL_MASK_SIP_SIE) ∧
    (Csr.read (Csr.write f Csr.sip v) Csr.mip &&& compl64 Csr.WARL_MASK_SIP_SIE =
      Csr.read f Csr.mip &&& compl64 Csr.WARL_MASK_SIP_SIE) ∧
    (Csr.read (Csr.write f Csr.sie v) Csr.mie &&& Csr.MACHINE_BIT_MASK =
      Csr.read f Csr.mie &&& Csr.MACHINE_BIT_MASK) ∧
    (Csr.read (Csr.write f Csr.sip v) Csr.mip &&& Csr.MACHINE_BIT_MASK =
      Csr.read f Csr.mip &&& Csr.MACHINE_BIT_MASK) := by
  refine ⟨?_, ?_, ?_, ?_, ?_⟩
  · rw [Csr.write_sstatus, Csr.read_mstatus, Csr.read_mstatus, Function.update_same]
    unfold Csr.sstatus_to_mstatus
    rw [land_lor_right, land_land, land_land,
      show compl64 Csr.SSTATUS_ALL_MASK &&& compl64 Csr.SSTATUS_ALL_MASK =
        compl64 Csr.SSTATUS_ALL_MASK from by decide,
      show Csr.SSTATUS_ALL_MASK &&& compl64 Csr.SSTATUS_ALL_MASK = 0 from by decide,
      Nat.and_zero, Nat.or_zero]
  · rw [Csr.write_sie, Csr.read_mie, Csr.read_mie, Function.update_same,
      land_lor_right, land_land, land_land,
      show Csr.WARL_MASK_SIP_SIE &&& compl64 Csr.WARL_MASK_SIP_SIE = 0 from by decide,
      show compl64 Csr.WARL_MASK_SIP_SIE &&& compl64 Csr.WARL_MASK_SIP_SIE =
        compl64 Csr.WARL_MASK_SIP_SIE from by decide,
      Nat.and_zero, Nat.zero_or]
  · rw [Csr.write_sip, Csr.read_mip, Csr.read_mip, Function.update_same,
      land_lor_right, land_land, land_land,
      show Csr.WARL_MASK_SIP_SIE &&& compl64 Csr.WARL_MASK_SIP_SIE = 0 from by decide,
      show compl64 Csr.WARL_MASK_SIP_SIE &&& compl64 Csr.WARL_MASK_SIP_SIE =
        compl64 Csr.WARL_MASK_SIP_SIE from by decide,
      Nat.and_zero, Nat.zero_or]
  · rw [Csr.write_sie, Csr.read_mie, Csr.read_mie, Function.update_same,
      land_lor_right, land_land, land_land,
      show Csr.WARL_MASK_SIP_SIE &&& Csr.MACHINE_BIT_MASK = 0 from by decide,
      show compl64 Csr.WARL_MASK_SIP_SIE &&& Csr.MACHINE_BIT_MASK =
        Csr.MACHINE_BIT_MASK from by decide,
      Nat.and_zero, Nat.zero_or]
  · rw [Csr.write_sip, Csr.read_mip, Csr.read_mip, Function.update_same,
      land_lor_right, land_land, land_land,
      show Csr.WARL_MASK_SIP_SIE &&& Csr.MACHINE_BIT_MASK = 0 from by decide,
      show compl64 Csr.WARL_MASK_SIP_SIE &&& Csr.MACHINE_BIT_MASK =
        Csr.MACHINE_BIT_MASK from by decide,
      Nat.and_zero, Nat.zero_or]

namespace Fpu

theorem set_bits_fflags_nv (f : Csr.CsrFile) :
    Csr.read (Csr.set_bits f Csr.fflags (1 <<< 4)).2 Csr.fflags =
      Csr.read f Csr.fflags ||| 16 := by
  have hb : Csr.read f Csr.fflags ||| 16 < 2 ^ 64 := by
    rw [Csr.read_fflags]
    have h1 : f Csr.fcsr &&& Csr.FFLAGS_MASK ≤ Csr.FFLAGS_MASK := Nat.and_le_right
    have h2 : f Csr.fcsr &&& Csr.FFLAGS_MASK < 2 ^ 64 := by
      have : Csr.FFLAGS_MASK < 2 ^ 64 := by decide
      omega
    exact Nat.or_lt_two_pow h2 (by norm_num)
  show Csr.read (Csr.write f Csr.fflags (Csr.read f Csr.fflags ||| 1 <<< 4))
    Csr.fflags = _
  rw [show (1 : ℕ) <<< 4 = 16 from rfl]
  rw [Csr.write_fflags f _ hb, Csr.read_fflags, Function.update_same,
    land_lor_right, land_land, land_land,
    show Csr.FFLAGS_MASK &&& Csr.FFLAGS_MASK = Csr.FFLAGS_MASK from by decide,
    show compl64 Csr.FFLAGS_MASK &&& Csr.FFLAGS_MASK = 0 from by decide,
    Nat.and_zero, Nat.or_zero, Csr.read_fflags, land_lor_right, land_land,
    show Csr.FFLAGS_MASK &&& Csr.FFLAGS_MASK = Csr.FFLAGS_MASK from by decide,
    show (16 : ℕ) &&& Csr.FFLAGS_MASK = 16 from by decide]

theorem testBit_or_sixteen (x : ℕ) : (x ||| 16).testBit 4 = true := by
  rw [Nat.testBit_or]
  simp [show Nat.testBit 16 4 = true from by decide]

/-- Claim C7: `FEQ` raises the invalid-operation flag iff an operand is a
signaling NaN; `FLT` and `FLE` raise it iff an operand is any NaN; and
whenever an operand is a NaN the comparison result written to `rd`
is 0. -/
theorem float_compare_nan_semantics (h : HartState) (rs1 rs2 rd : ℕ)
    (hNV : (Csr.read h.csregisters Csr.fflags).testBit 4 = false) :
    ((Csr.read (run_feq h rs1 rs2 rd).csregisters Csr.fflags).testBit 4 =
      ((h.fregisters rs1).is_signaling || (h.fregisters rs2).is_signaling)) ∧
    ((Csr.read (run_flt h rs1 rs2 rd).csregisters Csr.fflags).testBit 4 =
      ((h.fregisters rs1).is_nan || (h.fregisters rs2).is_nan)) ∧
    ((Csr.read (run_fle h rs1 rs2 rd).csregisters Csr.fflags).testBit 4 =
      ((h.fregisters rs1).is_nan || (h.fregisters rs2).is_nan)) ∧
    (((h.fregisters rs1).is_nan || (h.fregisters rs2).is_nan) = true →
      (run_feq h rs1 rs2 rd).xregisters rd = 0 ∧
      (run_flt h rs1 rs2 rd).xregisters rd = 0 ∧
      (run_fle h rs1 rs2 rd).xregisters rd = 0) := by
  refine ⟨?_, ?_, ?_, ?_⟩
  · by_cases hc : ((h.fregisters rs1).is_signaling || (h.fregisters rs2).is_signaling) =
        true
    · simp only [run_feq, hc, if_true, set_exception_flag, NV]
      rw [set_bits_fflags_nv h.csregisters]
      exact testBit_or_sixteen _
    · rw [run_feq]
      simp only [Bool.not_eq_true] at hc
      simp only [hc, Bool.false_eq_true, if_false]
      exact hNV
  · by_cases hc : ((h.fregisters rs1).is_nan || (h.fregisters rs2).is_nan) = true
    · simp only [run_flt, hc, if_true, set_exception_flag, NV]
      rw [set_bits_fflags_nv h.csregisters]
      exact testBit_or_sixteen _
    · rw [run_flt]
      simp only [Bool.not_eq_true] at hc
      simp only [hc, Bool.false_eq_true, if_false]
      exact hNV
  · by_cases hc : ((h.fregisters rs1).is_nan || (h.fregisters rs2).is_nan) = true
    · simp only [run_fle, hc, if_true, set_exception_flag, NV]
      rw [set_bits_fflags_nv h.csregisters]
      exact testBit_or_sixteen _
    · rw [run_fle]
      simp only [Bool.not_eq_true] at hc
      simp only [hc, Bool.false_eq_true, if_false]
      exact hNV
  · intro hnan
    have hfeq : feq (h.fregisters rs1) (h.fregisters rs2) = false := by
      cases h1 : h.fregisters rs1 <;> cases h2 : h.fregisters rs2 <;>
        simp_all [feq, FloatVal.is_nan]
    have hflt : flt (h.fregisters rs1) (h.fregisters rs2) = false := by
      cases h1 : h.fregisters rs1 <;> cases h2 : h.fregisters rs2 <;>
        simp_all [flt, FloatVal.is_nan]
    have hfle : fle (h.fregisters rs1) (h.fregisters rs2) = false := by
      cases h1 : h.fregisters rs1 <;> cases h2 : h.fregisters rs2 <;>
        simp_all [fle, FloatVal.is_nan]
    refine ⟨?_, ?_, ?_⟩ <;>
      simp [run_feq, run_flt, run_fle, hfeq, hflt, hfle]

end Fpu

/-- Witness for `Fpu.float_compare_nan_semantics`: comparing a signaling
NaN in `f1` against the number 0 in `f2` raises NV for `FEQ` and forces
the `rd` result to 0. -/
theorem float_compare_nan_semantics_witness :
    (Csr.read (Fpu.HartState.mk (fun _ => 0) (fun _ => 0)
      (fun i => if i = 1 then Fpu.FloatVal.snan else Fpu.FloatVal.num 0)).csregisters
      Csr.fflags).testBit 4 = false ∧
    (Csr.read (Fpu.run_feq (Fpu.HartState.mk (fun _ => 0) (fun _ => 0)
      (fun i => if i = 1 then Fpu.FloatVal.snan else Fpu.FloatVal.num 0)) 1 2 3).csregisters
      Csr.fflags).testBit 4 = true ∧
    (Fpu.run_feq (Fpu.HartState.mk (fun _ => 0) (fun _ => 0)
      (fun i => if i = 1 then Fpu.FloatVal.snan else Fpu.FloatVal.num 0)) 1 2 3).xregisters
      3 = 0 :=
  ⟨by decide,
   ((Fpu.float_compare_nan_semantics (Fpu.HartState.mk (fun _ => 0) (fun _ => 0)
      (fun i => if i = 1 then Fpu.FloatVal.snan else Fpu.FloatVal.num 0)) 1 2 3
      (by decide)).1).trans (by decide),
   (((Fpu.float_compare_nan_semantics (Fpu.HartState.mk (fun _ => 0) (fun _ => 0)
      (fun i => if i = 1 then Fpu.FloatVal.snan else Fpu.FloatVal.num 0)) 1 2 3
      (by decide)).2.2.2) (by decide)).1⟩

namespace Storage

theorem chunks4096_flatten : ∀ l : Bytes, (chunks4096 l).flatten = l := by
  intro l
  induction l using chunks4096.induct with
  | case1 => simp [chunks4096]
  | case2 a l ih =>
    rw [chunks4096, List.flatten_cons, ih, List.take_append_drop]

theorem store_spec {Hash : Type} [DecidableEq Hash] (hashFn : Bytes → Hash)
    (inj : Function.Injective hashFn) (s : StoreMap Hash) (d : Bytes)
    (hc : Consistent hashFn s) :
    (store hashFn s d).1 = hashFn d ∧
    Consistent hashFn (store hashFn s d).2 ∧
    (store hashFn s d).2 (hashFn d) = some d ∧
    (∀ h b, s h = some b → (store hashFn s d).2 h = some b) := by
  have hself : (s (hashFn d)).getD d = d := by
    cases hs : s (hashFn d) with
    | none => rfl
    | some b =>
      have := hc _ _ hs
      have hbd : b = d := inj this
      simp [hbd]
  refine ⟨rfl, ?_, ?_, ?_⟩
  · intro h b hb
    simp only [store] at hb
    by_cases hh : h = hashFn d
    · rw [if_pos hh, hself] at hb
      obtain rfl := Option.some.inj hb
      exact hh.symm
    · rw [if_neg hh] at hb
      exact hc _ _ hb
  · simp [store, hself]
  · intro h b hb
    simp only [store]
    by_cases hh : h = hashFn d
    · subst hh
      rw [if_pos rfl, hb]
      simp
    · rw [if_neg hh]
      exact hb

theorem storeChunks_spec {Hash : Type} [DecidableEq Hash] (hashFn : Bytes → Hash)
    (inj : Function.Injective hashFn) :
    ∀ (cs : List Bytes) (s : StoreMap Hash), Consistent hashFn s →
    (storeChunks hashFn s cs).1 = cs.map hashFn ∧
    Consistent hashFn (storeChunks hashFn s cs).2 ∧
    (∀ h b, s h = some b → (storeChunks hashFn s cs).2 h = some b) ∧
    (∀ c ∈ cs, (storeChunks hashFn s cs).2 (hashFn c) = some c) := by
  intro cs
  induction cs with
  | nil =>
    intro s hc
    exact ⟨rfl, hc, fun h b hb => hb, by simp⟩
  | cons c cs ih =>
    intro s hc
    obtain ⟨h1, h2, h3, h4⟩ := store_spec hashFn inj s c hc
    obtain ⟨g1, g2, g3, g4⟩ := ih (store hashFn s c).2 h2
    refine ⟨?_, ?_, ?_, ?_⟩
    · simp [storeChunks, h1, g1]
    · simpa [storeChunks] using g2
    · intro h b hb
      simpa [storeChunks] using g3 _ _ (h4 _ _ hb)
    · intro c' hc'
      rcases List.mem_cons.mp hc' with rfl | hmem
      · simpa [storeChunks] using g3 _ _ h3
      · simpa [storeChunks] using g4 _ hmem

theorem loadChunks_of_mem {Hash : Type} (s : StoreMap Hash) (hashFn : Bytes → Hash) :
    ∀ cs : List Bytes, (∀ c ∈ cs, s (hashFn c) = some c) →
    loadChunks s (cs.map hashFn) = some cs := by
  intro cs
  induction cs with
  | nil => intro _; rfl
  | cons c cs ih =>
    intro hmem
    have hc : s (hashFn c) = some c := hmem c (List.mem_cons_self c cs)
    have hrest := ih fun c' h => hmem c' (List.mem_cons_of_mem c h)
    simp [loadChunks, load, hc, hrest]

end Storage

/-- Claim C9: `commit` serializes the value, splits the bytes into
4096-byte chunks, stores each chunk, and returns the hash of the stored
ordered chunk-hash list (not of the raw data); `checkout` of that hash
reconstructs exactly the committed value.  The hash is assumed
collision-free (injective) and the serializers are assumed to invert
each other at the values involved — without which the source's
write-once store could not round-trip either. -/
theorem storage_commit_checkout_roundtrip {T Hash : Type} [DecidableEq Hash]
    (hashFn : Storage.Bytes → Hash) (serVal : T → Storage.Bytes)
    (deserVal : Storage.Bytes → Option T) (serHashes : List Hash → Storage.Bytes)
    (deserHashes : Storage.Bytes → Option (List Hash))
    (inj : Function.Injective hashFn) (s : Storage.StoreMap Hash)
    (hc : Storage.Consistent hashFn s) (v : T)
    (hv : deserVal (serVal v) = some v)
    (hh : deserHashes (serHashes ((Storage.chunks4096 (serVal v)).map hashFn)) =
      some ((Storage.chunks4096 (serVal v)).map hashFn)) :
    (Storage.commit hashFn serVal serHashes s v).1 =
      hashFn (serHashes ((Storage.chunks4096 (serVal v)).map hashFn)) ∧
    Storage.checkout deserVal deserHashes (Storage.commit hashFn serVal serHashes s v).2
      (Storage.commit hashFn serVal serHashes s v).1 = some v := by
  obtain ⟨g1, g2, g3, g4⟩ :=
    Storage.storeChunks_spec hashFn inj (Storage.chunks4096 (serVal v)) s hc
  set s1 := (Storage.storeChunks hashFn s (Storage.chunks4096 (serVal v))).2 with hs1
  obtain ⟨t1, t2, t3, t4⟩ := Storage.store_spec hashFn inj s1
    (serHashes ((Storage.chunks4096 (serVal v)).map hashFn)) g2
  have hcommit : Storage.commit hashFn serVal serHashes s v =
      Storage.store hashFn s1 (serHashes ((Storage.chunks4096 (serVal v)).map hashFn)) := by
    rw [Storage.commit]
    rw [g1]
  constructor
  · rw [hcommit, t1]
  · rw [hcommit, t1]
    have hload : (Storage.store hashFn s1
        (serHashes ((Storage.chunks4096 (serVal v)).map hashFn))).2
        (hashFn (serHashes ((Storage.chunks4096 (serVal v)).map hashFn))) =
        some (serHashes ((Storage.chunks4096 (serVal v)).map hashFn)) := t3
    have hchunks : ∀ c ∈ Storage.chunks4096 (serVal v),
        (Storage.store hashFn s1
          (serHashes ((Storage.chunks4096 (serVal v)).map hashFn))).2 (hashFn c) =
          some c := fun c hmem => t4 _ _ (g4 c hmem)
    rw [Storage.checkout, Storage.load, hload]
    simp only [Option.bind_eq_bind, Option.some_bind, hh]
    rw [Storage.loadChunks_of_mem _ hashFn _ hchunks, Option.some_bind,
      Storage.chunks4096_flatten, hv]

/-- Witness for `storage_commit_checkout_roundtrip`: identity hash and
serializers over an initially empty store. -/
theorem storage_commit_checkout_roundtrip_witness :
    Function.Injective (fun b : Storage.Bytes => b) ∧
    Storage.Consistent (fun b : Storage.Bytes => b) (fun _ => none) ∧
    some ((fun v : Storage.Bytes => v) []) = some ([] : Storage.Bytes) ∧
    (fun _ : Storage.Bytes => some ([] : List Storage.Bytes))
      (List.flatten ((Storage.chunks4096 ((fun v : Storage.Bytes => v) [])).map
        (fun b : Storage.Bytes => b))) =
      some ((Storage.chunks4096 ((fun v : Storage.Bytes => v) [])).map
        (fun b : Storage.Bytes => b)) ∧
    Storage.checkout some (fun _ => some ([] : List Storage.Bytes))
      (Storage.commit (fun b : Storage.Bytes => b) (fun v : Storage.Bytes => v)
        List.flatten (fun _ => none) ([] : Storage.Bytes)).2
      (Storage.commit (fun b : Storage.Bytes => b) (fun v : Storage.Bytes => v)
        List.flatten (fun _ => none) ([] : Storage.Bytes)).1 =
      some ([] : Storage.Bytes) :=
  ⟨fun _ _ h => h, fun _ _ hb => Option.noConfusion hb, rfl,
   by simp [Storage.chunks4096],
   (storage_commit_checkout_roundtrip (fun b : Storage.Bytes => b)
     (fun v : Storage.Bytes => v) some (List.flatten)
     (fun _ => some ([] : List Storage.Bytes)) (fun _ _ h => h) (fun _ => none)
     (fun _ _ hb => Option.noConfusion hb) ([] : Storage.Bytes) rfl
     (by simp [Storage.chunks4096])).2⟩
